import Mathlib

/-!
# A verification model of the lisby interpreter

This file is a shallow embedding, in Lean 4, of the core of the lisby
Scheme-like interpreter (Python sources: `lisby/parser/parser.py`,
`lisby/parser/node.py`, `lisby/compiler/compiler.py`, `lisby/vm/bytecode.py`,
`lisby/vm/program.py`, `lisby/vm/value.py`, `lisby/vm/vm.py`).

Modelling conventions:
* Python arbitrary-precision integers are `Int`; byte strings are `List Nat`
  (each entry < 256); Python `str` is `String`.
* Python lists used as stacks are Lean lists with the *head* as the Python
  *top* (the last element): Python `append`/`pop` become `cons`/`uncons`,
  Python `xs[:-2]` becomes `List.drop 2`, and popping `n` values in order
  yields `List.take n`.
* Python object mutation: environments are mutable and shared (closures and
  return frames hold references), so they are modelled as an arena
  (`List Frame`) addressed by index, exactly as suggested by the sharing in
  the source.  Operand stacks and return stacks are modelled by value; the
  places where the Python code shares those lists by reference are noted at
  the corresponding definitions, and the reference semantics of `VList`
  payloads (which the copy-on-lookup contract is about) is modelled
  explicitly with a heap of cells in the `RefModel` section.
* Python exceptions are explicit error values (`Exc` below), distinguishing
  lisby's user-visible families (`LisbySyntaxError`, `LisbyRuntimeError` and
  the `vm.py`-local `ArithmeticError` class) from Python built-in exceptions
  that nothing in the interpreter catches (`ZeroDivisionError`,
  `AttributeError`, `TypeError`, `AssertionError`, `struct.error`).
* IEEE-754 doubles are carried as Lean `Float` values; no claim below
  depends on a floating-point computation.
* Unbounded recursion (the VM dispatch loop, the compiler's traversal which
  may loop through macro expansion, deep copies of heap cells) is made total
  with an explicit fuel parameter; running out of fuel is a distinguished
  outcome that no theorem treats as evidence.
-/

namespace Lisby

/-! ## Little-endian signed 64-bit framing (struct pack/unpack "<q") -/

/-- `pack("<q", v)`: eight little-endian bytes of `v` modulo `2^64`. -/
def encInt64 (v : Int) : List Nat :=
  let u : Nat := (v % (2 ^ 64)).toNat
  (List.range 8).map (fun i => u / 256 ^ i % 256)

/-- `unpack("<q", bs)` on eight little-endian bytes, reading back a signed
64-bit value. -/
def decInt64 (bs : List Nat) : Int :=
  let u : Nat := bs.foldr (fun b acc => acc * 256 + b) 0
  if u < 2 ^ 63 then (u : Int) else (u : Int) - 2 ^ 64

/-! ## Parse tree nodes (`lisby/parser/node.py`)

Each Python node also carries a lexer token for diagnostics; positions play
no role in any claim, so the token field is dropped. `Application` stores
`applier` (`left`) and `args` (`right`); `tolist()` is `applier :: args`. -/

inductive Node where
  | int (i : Int)
  | float (bits : Nat)  -- the literal's IEEE-754 binary64 bit pattern
  | str (s : String)
  | symbol (s : String)
  | ttrue
  | tfalse
  | unit
  | application (applier : Node) (args : List Node)
  | quoted (inner : Node)
  | quasiquoted (inner : Node)
  | unquoted (inner : Node)

/-! ## Integer literals at parse time (`lisby/parser/parser.py`)

`Parser._atom` guards the `INT` branch with the two comparisons translated
below; `INT_MAX`/`INT_MIN` are the module-level constants of `parser.py`. -/

def INT_MAX : Int := 2 ^ 63

def INT_MIN : Int := -(2 ^ 63)

/-- Translated from `Parser._atom` (parser.py lines 64-68), `INT` branch:
`if cur.value > INT_MAX: raise IntegerSize(..., "integer too large")`
`elif cur.value <= INT_MIN: raise IntegerSize(..., "integer too small")`
and otherwise the literal becomes an `Int` node. -/
def parseIntLiteral (v : Int) : Except String Node :=
  if v > INT_MAX then .error "integer too large"
  else if v ≤ INT_MIN then .error "integer too small"
  else .ok (Node.int v)

/-! ## Macro body substitution (`Macro._expand`, compiler.py lines 54-70)

`_expand` walks a macro body with a `quotes` counter: a `Symbol` is replaced
by the matching argument node only when `quotes == 0`; an `Application` has
all of `tolist()` (that is, `applier :: args`) rewritten and reassembled by
`update`; `Quasiquoted` recurses with `quotes + 1`, `Unquoted` with
`quotes - 1`; every other node (including `Quoted`) falls through the
`if`/`elif` chain and is returned unchanged. -/

mutual

def expandNode (params : List String) (args : List Node) : Node → Int → Node
  | .symbol s, quotes =>
      if quotes = 0 ∧ params.contains s then
        args.getD (params.indexOf s) (.symbol s)
      else .symbol s
  | .application f as, quotes =>
      .application (expandNode params args f quotes) (expandList params args as quotes)
  | .quasiquoted m, quotes => .quasiquoted (expandNode params args m (quotes + 1))
  | .unquoted m, quotes => .unquoted (expandNode params args m (quotes - 1))
  | n, _ => n

def expandList (params : List String) (args : List Node) : List Node → Int → List Node
  | [], _ => []
  | m :: ms, quotes => expandNode params args m quotes :: expandList params args ms quotes

end

/-! Paths into a parse tree, used to state where a symbol occurrence sits
and what its quotation level is.  A `member i` step selects the `i`-th
element of an application's `tolist()`; the other steps descend through the
quotation wrappers. -/

inductive PathStep where
  | member (i : Nat)
  | qq
  | uq
  | qo

mutual

def nodeAt : Node → List PathStep → Option Node
  | n, [] => some n
  | .application f _, .member 0 :: p => nodeAt f p
  | .application _ as, .member (i + 1) :: p => nodeAtList as i p
  | .quasiquoted m, .qq :: p => nodeAt m p
  | .unquoted m, .uq :: p => nodeAt m p
  | .quoted m, .qo :: p => nodeAt m p
  | _, _ => none

def nodeAtList : List Node → Nat → List PathStep → Option Node
  | [], _, _ => none
  | m :: _, 0, p => nodeAt m p
  | _ :: ms, i + 1, p => nodeAtList ms i p

end

/-- The quotation level accumulated along a path: `Quasiquoted` adds one,
`Unquoted` subtracts one, other steps leave it unchanged. -/
def pathLevel : List PathStep → Int
  | [] => 0
  | .qq :: p => pathLevel p + 1
  | .uq :: p => pathLevel p - 1
  | _ :: p => pathLevel p

/-- Whether a path descends through a `Quoted` wrapper. -/
def pathHitsQuoted : List PathStep → Bool
  | [] => false
  | .qo :: _ => true
  | _ :: p => pathHitsQuoted p

theorem expandList_eq_map (params : List String) (args : List Node)
    (ms : List Node) (q : Int) :
    expandList params args ms q = ms.map (fun m => expandNode params args m q) := by
  induction ms with
  | nil => rfl
  | cons m ms ih => simp [expandList, ih]

/-- Substitution characterization of `expandNode`, proved for every start
level `q`: a symbol occurrence found at `path` is rewritten to the matching
argument node exactly when the accumulated level is zero, the path avoids
`Quoted`, and the name is a parameter; otherwise the occurrence is kept. -/
theorem expandNode_at_path (params : List String) (args : List Node) :
    ∀ (n : Node) (q : Int) (path : List PathStep) (s : String),
      nodeAt n path = some (.symbol s) →
      nodeAt (expandNode params args n q) path =
        (if pathLevel path + q = 0 ∧ pathHitsQuoted path = false ∧ params.contains s
         then some (args.getD (params.indexOf s) (.symbol s))
         else some (.symbol s)) := by
  intro n
  induction n using Node.rec
    (motive_2 := fun ms => ∀ (q : Int) (i : Nat) (path : List PathStep) (s : String),
      nodeAtList ms i path = some (.symbol s) →
      nodeAtList (expandList params args ms q) i path =
        (if pathLevel path + q = 0 ∧ pathHitsQuoted path = false ∧ params.contains s
         then some (args.getD (params.indexOf s) (.symbol s))
         else some (.symbol s))) with
  | int i => intro q path s h; cases path with
      | nil => simp [nodeAt] at h
      | cons st p => cases st <;> simp [nodeAt] at h
  | float f => intro q path s h; cases path with
      | nil => simp [nodeAt] at h
      | cons st p => cases st <;> simp [nodeAt] at h
  | str t => intro q path s h; cases path with
      | nil => simp [nodeAt] at h
      | cons st p => cases st <;> simp [nodeAt] at h
  | ttrue => intro q path s h; cases path with
      | nil => simp [nodeAt] at h
      | cons st p => cases st <;> simp [nodeAt] at h
  | tfalse => intro q path s h; cases path with
      | nil => simp [nodeAt] at h
      | cons st p => cases st <;> simp [nodeAt] at h
  | unit => intro q path s h; cases path with
      | nil => simp [nodeAt] at h
      | cons st p => cases st <;> simp [nodeAt] at h
  | symbol t =>
    intro q path s h
    cases path with
    | nil =>
        have ht : t = s := by simpa [nodeAt] using h
        subst ht
        simp only [pathLevel, pathHitsQuoted, expandNode]
        by_cases hq : q = 0
        · simp [nodeAt, hq, apply_ite some]
        · have h0 : ¬ ((0 : Int) + q = 0) := by omega
          simp [nodeAt, expandNode, hq, h0]
    | cons st p => cases st <;> simp [nodeAt] at h
  | application f as ihf ihas =>
    intro q path s h
    cases path with
    | nil => simp [nodeAt] at h
    | cons st p =>
      cases st with
      | member i =>
        cases i with
        | zero =>
            simp only [nodeAt] at h
            simpa [expandNode, nodeAt, pathLevel, pathHitsQuoted] using ihf q p s h
        | succ j =>
            simp only [nodeAt] at h
            simpa [expandNode, nodeAt, pathLevel, pathHitsQuoted] using ihas q j p s h
      | qq => simp [nodeAt] at h
      | uq => simp [nodeAt] at h
      | qo => simp [nodeAt] at h
  | quoted m ih =>
    intro q path s h
    cases path with
    | nil => simp [nodeAt] at h
    | cons st p =>
      cases st with
      | member i => simp [nodeAt] at h
      | qq => simp [nodeAt] at h
      | uq => simp [nodeAt] at h
      | qo =>
          simp only [nodeAt] at h
          simp [expandNode, nodeAt, pathLevel, pathHitsQuoted, h]
  | quasiquoted m ih =>
    intro q path s h
    cases path with
    | nil => simp [nodeAt] at h
    | cons st p =>
      cases st with
      | member i => simp [nodeAt] at h
      | qq =>
          simp only [nodeAt] at h
          have := ih (q + 1) p s h
          simp only [expandNode, nodeAt, pathLevel, pathHitsQuoted]
          rw [this]
          have harith : pathLevel p + (q + 1) = pathLevel p + 1 + q := by ring
          rw [harith]
      | uq => simp [nodeAt] at h
      | qo => simp [nodeAt] at h
  | unquoted m ih =>
    intro q path s h
    cases path with
    | nil => simp [nodeAt] at h
    | cons st p =>
      cases st with
      | member i => simp [nodeAt] at h
      | qq => simp [nodeAt] at h
      | uq =>
          simp only [nodeAt] at h
          have := ih (q - 1) p s h
          simp only [expandNode, nodeAt, pathLevel, pathHitsQuoted]
          rw [this]
          have harith : pathLevel p + (q - 1) = pathLevel p - 1 + q := by ring
          rw [harith]
      | qo => simp [nodeAt] at h
  | nil =>
    rename_i q i path s h
    simp [nodeAtList] at h
  | cons m ms ihm ihms =>
    rename_i q i path s h
    cases i with
    | zero =>
        simp only [nodeAtList] at h
        simpa [expandList, nodeAtList] using ihm q path s h
    | succ j =>
        simp only [nodeAtList] at h
        simpa [expandList, nodeAtList] using ihms q j path s h

/-- C7: the integer-literal range check of `Parser._atom` uses `>` and `≤`
where the specified interval `[-2^63, 2^63)` demands `≥` and `<`: the code
accepts the literal `2^63` (which the claim requires to be rejected) and
rejects the literal `-2^63` (which the claim requires to be accepted). -/
theorem claim_C7_int_range_boundaries :
    parseIntLiteral (2 ^ 63) = .ok (Node.int (2 ^ 63)) ∧
    parseIntLiteral (-(2 ^ 63)) = .error "integer too small" := by
  constructor <;> rfl

/-- C4, counterexample: in the macro body `Unquoted (Symbol "a")` the symbol
`a` sits at quotation level `-1 ≤ 0`, so the claim requires it to be
replaced by the argument node `Int 5`; `Macro._expand` substitutes only at
level exactly `0` and leaves it alone. -/
theorem claim_C4_counterexample :
    expandNode ["a"] [Node.int 5] (Node.unquoted (Node.symbol "a")) 0
      = Node.unquoted (Node.symbol "a") ∧
    expandNode ["a"] [Node.int 5] (Node.unquoted (Node.symbol "a")) 0
      ≠ Node.unquoted (Node.int 5) := by
  refine ⟨rfl, fun h => ?_⟩
  rw [show expandNode ["a"] [Node.int 5] (Node.unquoted (Node.symbol "a")) 0
      = Node.unquoted (Node.symbol "a") from rfl] at h
  injection h with h2
  exact Node.noConfusion h2

/-- C4, amended: expanding a macro body substitutes a parameter-named
`Symbol` with the corresponding argument node exactly when its accumulated
`Quasiquoted`/`Unquoted` level is exactly `0` and the occurrence is not
inside any `Quoted` subtree (which `Macro._expand` never enters); all other
identifier occurrences are kept verbatim, and the substituted node is the
argument parse-tree node itself, never an evaluated form of it. -/
theorem claim_C4_substitution_level0 (params : List String) (args : List Node)
    (n : Node) (path : List PathStep) (s : String)
    (h : nodeAt n path = some (.symbol s)) :
    nodeAt (expandNode params args n 0) path =
      (if pathLevel path = 0 ∧ pathHitsQuoted path = false ∧ params.contains s
       then some (args.getD (params.indexOf s) (.symbol s))
       else some (.symbol s)) := by
  have := expandNode_at_path params args n 0 path s h
  simpa using this

theorem claim_C4_substitution_level0_witness :
    nodeAt (Node.quasiquoted (Node.unquoted (Node.symbol "a")))
        [PathStep.qq, PathStep.uq] = some (Node.symbol "a") ∧
    nodeAt (expandNode ["a"] [Node.int 7]
        (Node.quasiquoted (Node.unquoted (Node.symbol "a"))) 0)
        [PathStep.qq, PathStep.uq] =
      (if pathLevel [PathStep.qq, PathStep.uq] = 0 ∧
          pathHitsQuoted [PathStep.qq, PathStep.uq] = false ∧
          (["a"] : List String).contains "a"
       then some (([Node.int 7] : List Node).getD
          ((["a"] : List String).indexOf "a") (Node.symbol "a"))
       else some (Node.symbol "a")) :=
  ⟨rfl, claim_C4_substitution_level0 ["a"] [Node.int 7]
    (Node.quasiquoted (Node.unquoted (Node.symbol "a")))
    [PathStep.qq, PathStep.uq] "a" rfl⟩

/-! ## Program container and serialization (`lisby/vm/program.py`) -/

/-- The eight bytes of `MAGIC = b"LISBY001"`. -/
def MAGIC : List Nat := [76, 73, 83, 66, 89, 48, 48, 49]

structure Program where
  tapes : List (List Nat) := [[]]
  strings : List String := []
  symbols : List String := []
  tape : Nat := 0

/-- UTF-8 encoding of an interned string (`cur.encode("utf8")`). -/
def strBytes (s : String) : List Nat := s.toUTF8.toList.map (fun b => b.toNat)

/-- UTF-8 decoding (`bytes.decode("utf8")`), failing on invalid input. -/
def bytesToStr (bs : List Nat) : Option String :=
  String.fromUTF8? (ByteArray.mk (bs.map (fun b => UInt8.ofNat b)).toArray)

/-- `Program.serialize` (program.py lines 65-82): magic, string table,
symbol table, tapes — each length-prefixed — then the reversed magic. -/
def Program.serialize (p : Program) : List Nat :=
  MAGIC
    ++ encInt64 p.strings.length
    ++ (p.strings.map (fun s => encInt64 (Int.ofNat (strBytes s).length) ++ strBytes s)).flatten
    ++ encInt64 p.symbols.length
    ++ (p.symbols.map (fun s => encInt64 (Int.ofNat (strBytes s).length) ++ strBytes s)).flatten
    ++ encInt64 p.tapes.length
    ++ (p.tapes.map (fun t => encInt64 (Int.ofNat t.length) ++ t)).flatten
    ++ MAGIC.reverse

inductive DeserErr where
  | initialMagic   -- RuntimeError("Initial magic not found")
  | endMagic       -- RuntimeError("End magic not found")
  | structError    -- struct.error from unpack on a short or malformed buffer
  | unicodeError   -- UnicodeDecodeError from bytes.decode("utf8")
deriving DecidableEq

/-- `next_int` of `Program.deserialize`: `unpack("<q", raw[:8])`, which
raises `struct.error` when fewer than eight bytes remain. -/
def nextInt (raw : List Nat) : Except DeserErr (Int × List Nat) :=
  if raw.length < 8 then .error .structError
  else .ok (decInt64 (raw.take 8), raw.drop 8)

/-- One length-prefixed field: `next_int` for the length followed by
`next_bytes`; a negative or overlong count makes `unpack` fail. -/
def readSized (raw : List Nat) : Except DeserErr (List Nat × List Nat) := do
  let (ll, raw) ← nextInt raw
  if ll < 0 then throw .structError
  else if raw.length < ll.toNat then throw .structError
  else return (raw.take ll.toNat, raw.drop ll.toNat)

/-- The string/symbol table loop of `Program.deserialize`. -/
def readStrTable : Nat → List Nat → Except DeserErr (List String × List Nat)
  | 0, raw => .ok ([], raw)
  | k + 1, raw => do
      let (bs, raw) ← readSized raw
      match bytesToStr bs with
      | none => throw .unicodeError
      | some s => do
          let (rest, raw) ← readStrTable k raw
          return (s :: rest, raw)

/-- The tape loop of `Program.deserialize`. -/
def readTapes : Nat → List Nat → Except DeserErr (List (List Nat) × List Nat)
  | 0, raw => .ok ([], raw)
  | k + 1, raw => do
      let (bs, raw) ← readSized raw
      let (rest, raw) ← readTapes k raw
      return (bs :: rest, raw)

/-- `Program.deserialize` (program.py lines 12-56): check the initial
magic, read both tables and the tapes, then check that exactly
`len(MAGIC)` bytes remain — the remaining bytes' *content* is not
inspected.  A negative table or tape count makes the corresponding Python
`range` empty, reading zero entries. -/
def Program.deserialize (raw : List Nat) : Except DeserErr Program := do
  if raw.length < MAGIC.length ∨ raw.take MAGIC.length ≠ MAGIC then
    throw .initialMagic
  else
    let raw := raw.drop MAGIC.length
    let (nstrings, raw) ← nextInt raw
    let (strings, raw) ← readStrTable nstrings.toNat raw
    let (nsymbols, raw) ← nextInt raw
    let (symbols, raw) ← readStrTable nsymbols.toNat raw
    let (ntapes, raw) ← nextInt raw
    let (tapes, raw) ← readTapes ntapes.toNat raw
    if raw.length ≠ MAGIC.length then throw .endMagic
    else return { tapes := tapes, strings := strings, symbols := symbols, tape := 0 }

/-- The byte image of a program with empty tables and no tapes, up to (but
not including) the end-magic position. -/
def emptyTablesBody : List Nat :=
  MAGIC ++ encInt64 0 ++ encInt64 0 ++ encInt64 0

/-- C8, counterexample: a byte string whose 8-byte tail is all zeroes — not
the reversed magic — is accepted by `Program.deserialize`, not rejected. -/
theorem claim_C8_counterexample :
    ([0, 0, 0, 0, 0, 0, 0, 0] : List Nat) ≠ MAGIC.reverse ∧
    Program.deserialize (emptyTablesBody ++ [0, 0, 0, 0, 0, 0, 0, 0])
      = .ok { tapes := [], strings := [], symbols := [], tape := 0 } := by
  constructor
  · decide
  · rfl

theorem nextInt_cons8 (a b c d e f g h : Nat) (rest : List Nat) :
    nextInt (a :: b :: c :: d :: e :: f :: g :: h :: rest)
      = .ok (decInt64 [a, b, c, d, e, f, g, h], rest) := by
  have hlen : ¬ (a :: b :: c :: d :: e :: f :: g :: h :: rest).length < 8 := by
    simp only [List.length_cons]
    omega
  simp [nextInt, hlen, List.take, List.drop]

theorem decInt64_zeros : decInt64 [0, 0, 0, 0, 0, 0, 0, 0] = 0 := rfl

theorem deser_emptyTables (t : List Nat) :
    Program.deserialize (emptyTablesBody ++ t) =
      if t.length = 8 then
        .ok { tapes := [], strings := [], symbols := [], tape := 0 }
      else .error .endMagic := by
  have hshape : emptyTablesBody ++ t =
      76 :: 73 :: 83 :: 66 :: 89 :: 48 :: 48 :: 49 ::
      0 :: 0 :: 0 :: 0 :: 0 :: 0 :: 0 :: 0 ::
      0 :: 0 :: 0 :: 0 :: 0 :: 0 :: 0 :: 0 ::
      0 :: 0 :: 0 :: 0 :: 0 :: 0 :: 0 :: 0 :: t := rfl
  rw [hshape]
  simp only [Program.deserialize]
  rw [if_neg (by
    push_neg
    refine ⟨?_, by rfl⟩
    simp only [List.length_cons, MAGIC, List.length_nil]
    omega)]
  by_cases h8 : t.length = 8
  · simp [h8, nextInt_cons8, readStrTable, readTapes, decInt64_zeros, bind,
      Except.bind, pure, Except.pure, MAGIC, Int.toNat, throw, throwThe,
      MonadExceptOf.throw]
  · simp [h8, nextInt_cons8, readStrTable, readTapes, decInt64_zeros, bind,
      Except.bind, pure, Except.pure, MAGIC, Int.toNat, throw, throwThe,
      MonadExceptOf.throw]

/-- C8, amended: deserialization rejects every byte string that does not
begin with the 8-byte magic, and after the tables and tapes it only checks
that exactly eight bytes remain: any 8-byte tail is accepted regardless of
its content, while a tail of any other length is rejected. -/
theorem claim_C8_magic_handling :
    (∀ raw : List Nat, raw.take MAGIC.length ≠ MAGIC →
      Program.deserialize raw = .error .initialMagic) ∧
    (∀ t : List Nat,
      (Program.deserialize (emptyTablesBody ++ t)).isOk = true ↔ t.length = 8) := by
  constructor
  · intro raw hne
    simp only [Program.deserialize]
    rw [if_pos (Or.inr hne)]
    rfl
  · intro t
    rw [deser_emptyTables]
    by_cases h8 : t.length = 8
    · simp [h8, Except.isOk, Except.toBool]
    · simp [h8, Except.isOk, Except.toBool]

theorem claim_C8_magic_handling_witness :
    Program.deserialize [0, 1, 2] = .error .initialMagic ∧
    ((Program.deserialize (emptyTablesBody ++ [9, 9, 9, 9, 9, 9, 9, 9])).isOk = true ↔
      ([9, 9, 9, 9, 9, 9, 9, 9] : List Nat).length = 8) :=
  ⟨claim_C8_magic_handling.1 [0, 1, 2] (by decide),
   claim_C8_magic_handling.2 [9, 9, 9, 9, 9, 9, 9, 9]⟩

/-! ## Opcodes (`lisby/vm/bytecode.py`) -/

namespace Op

def HALT : Nat := 0
def ADD : Nat := 1
def SUB : Nat := 2
def MUL : Nat := 3
def DIV : Nat := 4
def XOR : Nat := 5
def MOD : Nat := 6
def AND : Nat := 7
def OR : Nat := 8
def INV : Nat := 9
def PUSHI : Nat := 10
def PUSHF : Nat := 11
def PUSHSTR : Nat := 12
def PUSHSY : Nat := 13
def PUSHSYRAW : Nat := 14
def PUSHTRUE : Nat := 15
def PUSHFALSE : Nat := 16
def PUSHUNIT : Nat := 17
def PUSHCLOSURE : Nat := 18
def PUSHCONT : Nat := 19
def QUOTED : Nat := 20
def POP : Nat := 21
def CALL : Nat := 22
def TAILCALL : Nat := 23
def RET : Nat := 24
def JT : Nat := 25
def JF : Nat := 26
def JMP : Nat := 27
def STORE : Nat := 28
def STORETOP : Nat := 29
def EQ : Nat := 30
def NEQ : Nat := 31
def GT : Nat := 32
def GE : Nat := 33
def LT : Nat := 34
def LE : Nat := 35
def NOT : Nat := 36
def DECLARE : Nat := 37
def PRINT : Nat := 38
def LIST : Nat := 39
def HEAD : Nat := 40
def TAIL : Nat := 41
def LISTCAT : Nat := 42
def EVAL : Nat := 43
def DUMP : Nat := 44
def NEWENV : Nat := 45
def DEPARTENV : Nat := 46
def QUASIQUOTED : Nat := 47

/-- `Op.Type._MAX`: the number of entries of the VM's dispatch tuple. -/
def MAXOP : Nat := 48

end Op

/-! ## Runtime values and VM state (`lisby/vm/value.py`, `lisby/vm/vm.py`)

`Environment` objects are mutable and shared by reference (closures capture
them, return addresses store them), so environments live in an arena
(`VMState.envs`) and every `Environment` reference in the source becomes an
arena index.  A frame's dict maps a symbol index to `Option Value`:
`none` is the Python `None` sentinel installed by `DECLARE`. -/

/-- A return address (`value.py` class `Address`): tape, pc and a reference
to the environment to restore. -/
structure Addr where
  tape : Nat
  pc : Int
  env : Nat

inductive Value where
  | int (i : Int)
  | float (f : Float)
  | str (s : String)
  | symbol (s : String)
  | vtrue
  | vfalse
  | vlist (elems : List Value)
  | closure (parent : Nat) (tape : Nat)
  | cont (stack : List Value) (rets : List Addr) (tape : Nat) (pc : Int)
  | quotedV (v : Value) (degree : Int)
  | quasiquotedV (v : Value) (degree : Int)
  | unquotedV (v : Value)
  | builtin (name : String)

mutual

/-- `Value.copy` dispatch (`value.py`): scalars, closures, continuations
and builtins return `self`; `VList.copy` deep-copies its contents; the
quotation wrappers copy their payload.  Under the by-value stack model the
deep copy is the structural identity; its aliasing consequences are studied
in the `RefModel` section. -/
def copyV : Value → Value
  | .vlist es => .vlist (copyL es)
  | .quotedV v d => .quotedV (copyV v) d
  | .quasiquotedV v d => .quasiquotedV (copyV v) d
  | .unquotedV v => .unquotedV (copyV v)
  | v => v

def copyL : List Value → List Value
  | [] => []
  | v :: vs => copyV v :: copyL vs

end

/-- One environment frame: the `values` dict and the `parent` reference. -/
structure Frame where
  values : List (Nat × Option Value) := []
  parent : Option Nat := none

instance : Inhabited Frame := ⟨{}⟩

/-- Dict lookup: `some` iff the key is present (even when bound to the
`None` sentinel). -/
def lookupEntry : List (Nat × Option Value) → Nat → Option (Option Value)
  | [], _ => none
  | (k, v) :: rest, key => if k = key then some v else lookupEntry rest key

/-- Dict store: replace an existing entry or append a new one. -/
def setEntry : List (Nat × Option Value) → Nat → Option Value → List (Nat × Option Value)
  | [], key, v => [(key, v)]
  | (k, w) :: rest, key, v =>
      if k = key then (k, v) :: rest else (k, w) :: setEntry rest key v

/-- The user-visible error families and the Python built-in exceptions the
interpreter can leak.  `halted` is the loop-internal `Halted` marker. -/
inductive Exc where
  | halted
  | indexError                  -- Python IndexError (caught by VM.run)
  | customArith (msg : String)  -- vm.py class ArithmeticError (caught by VM.run)
  | runtime (msg : String)      -- LisbyRuntimeError (user-visible)
  | zeroDivision                -- Python ZeroDivisionError, uncaught
  | attributeError              -- Python AttributeError, uncaught
  | typeError                   -- Python TypeError, uncaught
  | assertionError              -- Python AssertionError, uncaught
  | structError                 -- struct.error, uncaught
  | keyError                    -- Python KeyError, uncaught
  | pyRuntimeError              -- Python RuntimeError (program.py), uncaught
  | unicodeError                -- UnicodeDecodeError, uncaught
deriving DecidableEq

/-- The execution state of `VM.run` (`vm.py` lines 56-68 and 140-153). -/
structure VMState where
  envs : List Frame
  env : Nat
  topenv : Nat
  stack : List Value
  rets : List Addr
  tapes : List (List Nat)
  prog : Program
  tape : Nat
  quoted : Int
  quasiquoted : Int
  output : List Value

/-- `VM._push`: wrap the value with a pending `Quoted`/`Quasiquoted`
counter before pushing, then reset the counter. -/
def VMState.push (s : VMState) (v : Value) : VMState :=
  if s.quoted > 0 then
    { s with stack := Value.quotedV v s.quoted :: s.stack, quoted := 0 }
  else if s.quasiquoted > 0 then
    { s with stack := Value.quasiquotedV v s.quasiquoted :: s.stack, quasiquoted := 0 }
  else { s with stack := v :: s.stack }

/-- `_find_sym_env`: walk the environment chain looking for a frame whose
dict contains the index; `none` means the search fell off the chain (the
caller raises `LisbyRuntimeError`).  The fuel bounds the chain walk;
`parent` references always point to previously allocated frames, so
`envs.length + 1` steps always suffice. -/
def findSymEnvAux (envs : List Frame) (key : Nat) : Nat → Option Nat → Option Nat
  | _, none => none
  | 0, some _ => none
  | fuel + 1, some i =>
      let fr := envs.getD i default
      match lookupEntry fr.values key with
      | some _ => some i
      | none => findSymEnvAux envs key fuel fr.parent

def VMState.findSymEnv (s : VMState) (key : Nat) : Option Nat :=
  findSymEnvAux s.envs key (s.envs.length + 1) (some s.env)

/-- Write `values[key] = v` in arena frame `ei`. -/
def VMState.setEnvValue (s : VMState) (ei : Nat) (key : Nat) (v : Option Value) : VMState :=
  let fr := s.envs.getD ei default
  { s with envs := s.envs.set ei { fr with values := setEntry fr.values key v } }

/-- `program.symbol_name(i)`: a plain list access, so an out-of-range index
raises `IndexError`. -/
def VMState.symbolName (s : VMState) (i : Nat) : Except Exc String :=
  match s.prog.symbols.get? i with
  | some n => .ok n
  | none => .error .indexError

/-- `program.string_value(i)`. -/
def VMState.stringValue (s : VMState) (i : Nat) : Except Exc String :=
  match s.prog.strings.get? i with
  | some v => .ok v
  | none => .error .indexError

/-- `self.tapes[self.tape]`, defaulting for an out-of-range tape (the fetch
path checks the index separately). -/
def VMState.curTape (s : VMState) : List Nat := s.tapes.getD s.tape []

/-- `VM._read_int`: `unpack("<q", tape[pc:pc+8])`; a slice shorter than 8
bytes makes `unpack` raise `struct.error`.  Negative offsets never arise
from compiled code and are mapped to the same failure. -/
def VMState.readInt (s : VMState) (pc : Int) : Except Exc Int :=
  if pc < 0 then .error .structError
  else
    let t := s.curTape
    if pc.toNat + 8 ≤ t.length then .ok (decInt64 ((t.drop pc.toNat).take 8))
    else .error .structError

/-- `VM._read_bytes`: `bytes(tape[pc:pc+n])` — Python slices clamp, so a
short read returns fewer bytes without error. -/
def VMState.readBytes (s : VMState) (pc : Int) (n : Nat) : List Nat :=
  if pc < 0 then []
  else (s.curTape.drop pc.toNat).take n

/-- Fetch one opcode byte, with Python's negative-index behaviour and
`IndexError` past either end. -/
def VMState.fetch (s : VMState) (pc : Int) : Except Exc Nat :=
  if s.tape < s.tapes.length then
    let t := s.curTape
    if 0 ≤ pc ∧ pc < (t.length : Int) then .ok (t.getD pc.toNat 0)
    else if -(t.length : Int) ≤ pc ∧ pc < 0 then
      .ok (t.getD ((t.length : Int) + pc).toNat 0)
    else .error .indexError
  else .error .indexError

/-- The `builtins` table of `vm.py`. -/
def builtinNames : List String :=
  ["+", "-", "*", "/", "%", "=", "!=", "<", "<=", ">", ">=",
   "not", "head", "tail", "dump", "^", "&", "|", "~"]

/-! ### Arithmetic (`arith` and friends in `vm.py`) -/

inductive AOp where
  | add | sub | mul | div | xor | mod | band | bor

/-- Integer arithmetic: `Int(int(op(l, r)))`.  For `truediv` Python forms
the float quotient and `int` truncates it toward zero — exact truncated
division for the magnitudes involved here — and division or modulus by
zero raises `ZeroDivisionError` before the conversion. -/
def intAOp : AOp → Int → Int → Except Exc Int
  | .add, a, b => .ok (a + b)
  | .sub, a, b => .ok (a - b)
  | .mul, a, b => .ok (a * b)
  | .div, a, b => if b = 0 then .error .zeroDivision else .ok (Int.tdiv a b)
  | .mod, a, b => if b = 0 then .error .zeroDivision else .ok (Int.emod a b)
  | .xor, a, b => .ok (Int.xor a b)
  | .band, a, b => .ok (Int.land a b)
  | .bor, a, b => .ok (Int.lor a b)

/-- Float arithmetic for the mixed/float branch of `arith`; `^ & |` on
floats raise `TypeError` in Python, `%` is `a - b*floor(a/b)`. -/
def floatAOp : AOp → Float → Float → Except Exc Float
  | .add, a, b => .ok (a + b)
  | .sub, a, b => .ok (a - b)
  | .mul, a, b => .ok (a * b)
  | .div, a, b => if b == 0.0 then .error .zeroDivision else .ok (a / b)
  | .mod, a, b =>
      if b == 0.0 then .error .zeroDivision
      else .ok (a - b * Float.floor (a / b))
  | .xor, _, _ => .error .typeError
  | .band, _, _ => .error .typeError
  | .bor, _, _ => .error .typeError

/-- `arith(op)`: pop `left`, peek `right`, overwrite the top with the
result; int×int stays int, any float makes a float, other operand types
raise the `vm.py` `ArithmeticError`. -/
def arith (op : AOp) (s : VMState) (pc : Int) : Except Exc (VMState × Int) :=
  match s.stack with
  | [] => .error .assertionError          -- _pop's assert "stack ran out"
  | left :: rest =>
    match rest with
    | [] => .error .indexError            -- self.stack[-1] on the emptied stack
    | right :: below =>
      match left, right with
      | .int a, .int b => do
          let r ← intAOp op a b
          return ({ s with stack := Value.int r :: below }, pc)
      | .float a, .float b => do
          let r ← floatAOp op a b
          return ({ s with stack := Value.float r :: below }, pc)
      | .int a, .float b => do
          let r ← floatAOp op (Float.ofInt a) b
          return ({ s with stack := Value.float r :: below }, pc)
      | .float a, .int b => do
          let r ← floatAOp op a (Float.ofInt b)
          return ({ s with stack := Value.float r :: below }, pc)
      | _, _ => .error (.customArith "cannot operate on these types")

/-! ### Comparisons (`comp` in `vm.py`)

`comp` demands `type(left) == type(right)` and then compares the Python
payloads.  Payloads of the same class compare as follows; for `VList` and
the wrapper classes Python's `==` falls back to per-element object
identity, which a by-value model renders structurally (no claim exercises
those comparisons), and its order comparisons raise `TypeError`. -/

inductive COp where
  | ceq | cne | clt | cle | cgt | cge

def sameClass : Value → Value → Bool
  | .int _, .int _ => true
  | .float _, .float _ => true
  | .str _, .str _ => true
  | .symbol _, .symbol _ => true
  | .vtrue, .vtrue => true
  | .vfalse, .vfalse => true
  | .vlist _, .vlist _ => true
  | .closure _ _, .closure _ _ => true
  | .cont _ _ _ _, .cont _ _ _ _ => true
  | .quotedV _ _, .quotedV _ _ => true
  | .quasiquotedV _ _, .quasiquotedV _ _ => true
  | .unquotedV _, .unquotedV _ => true
  | .builtin _, .builtin _ => true
  | _, _ => false

mutual

def valueEqb : Value → Value → Bool
  | .int a, .int b => a = b
  | .float a, .float b => a == b
  | .str a, .str b => a = b
  | .symbol a, .symbol b => a = b
  | .vtrue, .vtrue => true
  | .vfalse, .vfalse => true
  | .vlist a, .vlist b => valueListEqb a b
  | .closure _ ta, .closure _ tb => ta = tb      -- Closure.value is the tape id
  | .cont _ _ ta _, .cont _ _ tb _ => ta = tb    -- Continuation.value is the tape id
  | .quotedV a _, .quotedV b _ => valueEqb a b
  | .quasiquotedV a _, .quasiquotedV b _ => valueEqb a b
  | .unquotedV a, .unquotedV b => valueEqb a b
  | .builtin a, .builtin b => a = b
  | _, _ => false

def valueListEqb : List Value → List Value → Bool
  | [], [] => true
  | a :: as', b :: bs' => valueEqb a b && valueListEqb as' bs'
  | _, _ => false

end

/-- Strict order on same-class payloads, `TypeError` where Python's `<`
is undefined for the payload class. -/
def payloadLt : Value → Value → Except Exc Bool
  | .int a, .int b => .ok (decide (a < b))
  | .float a, .float b => .ok (a < b)
  | .str a, .str b => .ok (decide (a < b))
  | .symbol a, .symbol b => .ok (decide (a < b))
  | .vtrue, .vtrue => .ok false
  | .vfalse, .vfalse => .ok false
  | .vfalse, .vtrue => .ok true
  | .vtrue, .vfalse => .ok false
  | .closure _ ta, .closure _ tb => .ok (decide (ta < tb))
  | .cont _ _ ta _, .cont _ _ tb _ => .ok (decide (ta < tb))
  | .builtin a, .builtin b => .ok (decide (a < b))
  | _, _ => .error .typeError

def compBool (op : COp) (left right : Value) : Except Exc Bool :=
  match op with
  | .ceq => .ok (valueEqb left right)
  | .cne => .ok (!valueEqb left right)
  | .clt => payloadLt left right
  | .cgt => payloadLt right left
  | .cle => do
      let lt ← payloadLt left right
      return (lt || valueEqb left right)
  | .cge => do
      let lt ← payloadLt right left
      return (lt || valueEqb left right)

/-- `comp(op)`: pop `left`, peek `right`, require equal classes, overwrite
the top with `True`/`False`. -/
def comp (op : COp) (s : VMState) (pc : Int) : Except Exc (VMState × Int) :=
  match s.stack with
  | [] => .error .assertionError
  | left :: rest =>
    match rest with
    | [] => .error .indexError
    | right :: below =>
      if sameClass left right then do
        let b ← compBool op left right
        return ({ s with stack := (if b then Value.vtrue else Value.vfalse) :: below }, pc)
      else .error (.runtime "Non-comparable types")

/-! ### Opcode handlers (the nested `def`s of `VM.run`)

Each handler receives the post-opcode pc and yields the next state and pc,
or an exception.  `EVAL` must run a nested VM, so a handler returns a
`StepRes`: either a plain successor or a request to run an embedded
program, resolved by the fuelled `loop` below. -/

inductive StepRes where
  | next (s : VMState) (pc : Int)
  | runEval (s : VMState) (raw : List Nat) (pcAfter : Int)

namespace VMH

def halt (_ : VMState) (_ : Int) : Except Exc StepRes := .error .halted

def add (s : VMState) (pc : Int) : Except Exc StepRes :=
  (arith .add s pc).map (fun r => .next r.1 r.2)

def sub (s : VMState) (pc : Int) : Except Exc StepRes :=
  (arith .sub s pc).map (fun r => .next r.1 r.2)

def mul (s : VMState) (pc : Int) : Except Exc StepRes :=
  (arith .mul s pc).map (fun r => .next r.1 r.2)

def div (s : VMState) (pc : Int) : Except Exc StepRes :=
  (arith .div s pc).map (fun r => .next r.1 r.2)

def xor (s : VMState) (pc : Int) : Except Exc StepRes :=
  (arith .xor s pc).map (fun r => .next r.1 r.2)

def mod (s : VMState) (pc : Int) : Except Exc StepRes :=
  (arith .mod s pc).map (fun r => .next r.1 r.2)

def andd (s : VMState) (pc : Int) : Except Exc StepRes :=
  (arith .band s pc).map (fun r => .next r.1 r.2)

def orr (s : VMState) (pc : Int) : Except Exc StepRes :=
  (arith .bor s pc).map (fun r => .next r.1 r.2)

/-- `inv`: `un.value = ~un.value & 0xFFFFFFFFFFFFFFFF` in place on the top
`Int`; Python `~v` is `-v-1` and masking is reduction mod `2^64`.  (The
in-place update aliases the shared `Int` object; no claim depends on that
and the update is rendered by value here.) -/
def inv (s : VMState) (pc : Int) : Except Exc StepRes :=
  match s.stack with
  | [] => .error .indexError
  | .int v :: rest =>
      .ok (.next { s with stack := .int ((-v - 1) % (2 ^ 64)) :: rest } pc)
  | _ :: _ => .error (.customArith "bitwise inversion applies only to ints")

def pushi (s : VMState) (pc : Int) : Except Exc StepRes := do
  let v ← s.readInt pc
  return .next (s.push (.int v)) (pc + 8)

/-- Decode an IEEE-754 binary64 bit pattern: sign, 11 exponent bits, 52
fraction bits, with the subnormal, infinity and NaN encodings. -/
def floatOfBits (u : Nat) : Float :=
  let sign : Float := if u / 2 ^ 63 % 2 = 1 then -1.0 else 1.0
  let e : Nat := u / 2 ^ 52 % 2 ^ 11
  let frac : Nat := u % 2 ^ 52
  if e = 2047 then
    if frac = 0 then sign * (1.0 / 0.0) else 0.0 / 0.0
  else if e = 0 then
    sign * (Float.ofNat frac).scaleB (-1074)
  else
    sign * (Float.ofNat (frac + 2 ^ 52)).scaleB ((e : Int) - 1075)

/-- `_read_float`: `unpack("<d", ...)` — the eight little-endian bytes as
an IEEE-754 double. -/
def pushf (s : VMState) (pc : Int) : Except Exc StepRes :=
  if pc < 0 then .error .structError
  else
    let t := s.curTape
    if pc.toNat + 8 ≤ t.length then
      let u := ((t.drop pc.toNat).take 8).foldr (fun b acc => acc * 256 + b) 0
      .ok (.next (s.push (.float (floatOfBits u))) (pc + 8))
    else .error .structError

def pushtrue (s : VMState) (pc : Int) : Except Exc StepRes :=
  .ok (.next (s.push .vtrue) pc)

def pushfalse (s : VMState) (pc : Int) : Except Exc StepRes :=
  .ok (.next (s.push .vfalse) pc)

/-- `pushsy`: resolve the symbol in the environment chain and push a *copy*
of the bound value; if `_find_sym_env` raised `LisbyRuntimeError` fall back
to a reified `Builtin`, else re-raise.  A `DECLARE`d-but-unset entry is
found (its `None` sentinel is a dict hit), and `None.copy()` then raises
`AttributeError` — which is not a `LisbyRuntimeError`, so it propagates
(claim C10). -/
def pushsy (s : VMState) (pc : Int) : Except Exc StepRes := do
  let symindex ← s.readInt pc
  let k := symindex.toNat
  match s.findSymEnv k with
  | some ei =>
      let fr := s.envs.getD ei default
      match lookupEntry fr.values k with
      | some (some v) => return .next (s.push (copyV v)) (pc + 8)
      | some none => .error .attributeError
      | none => .error .keyError  -- unreachable: findSymEnv found this frame
  | none =>
      let name ← s.symbolName k
      if builtinNames.contains name then
        return .next (s.push (.builtin name)) (pc + 8)
      else
        .error (.runtime ("Cannot resolve symbol: " ++ name))

def pushsyraw (s : VMState) (pc : Int) : Except Exc StepRes := do
  let symindex ← s.readInt pc
  let name ← s.symbolName symindex.toNat
  return .next (s.push (.symbol name)) (pc + 8)

def pushstr (s : VMState) (pc : Int) : Except Exc StepRes := do
  let strindex ← s.readInt pc
  let v ← s.stringValue strindex.toNat
  return .next (s.push (.str v)) (pc + 8)

def pushunit (s : VMState) (pc : Int) : Except Exc StepRes :=
  .ok (.next (s.push (.vlist [])) pc)

def pushclosure (s : VMState) (pc : Int) : Except Exc StepRes := do
  let t ← s.readInt pc
  return .next (s.push (.closure s.env t.toNat)) (pc + 8)

/-- `pushcont`: `Continuation(self.stack[:-2], self.rets, self.tape,
self._read_int(pc))`.  With the head-is-top stack encoding `stack[:-2]` is
`List.drop 2` — it removes the *top two* operand values (the code means to
exclude a continuation and closure, but they have not been pushed yet at
this point; claim C2).  `self.rets` is stored by reference in Python; the
following `CALL` appends to that same list. -/
def pushcont (s : VMState) (pc : Int) : Except Exc StepRes := do
  let v ← s.readInt pc
  return .next (s.push (.cont (s.stack.drop 2) s.rets s.tape v)) (pc + 8)

def quote (s : VMState) (pc : Int) : Except Exc StepRes := do
  let n ← s.readInt pc
  return .next { s with quoted := n } (pc + 8)

def quasiquote (s : VMState) (pc : Int) : Except Exc StepRes := do
  let n ← s.readInt pc
  return .next { s with quasiquoted := n } (pc + 8)

/-- `pop` uses `_pop_noret`, which slices without checking: popping an
empty stack silently leaves it empty. -/
def pop (s : VMState) (pc : Int) : Except Exc StepRes :=
  .ok (.next { s with stack := s.stack.drop 1 } pc)

/-- `VM._store`: pop the value, read the target index, look the name up
(the `_trace` argument evaluates `symbol_name` unconditionally), then —
crucially — the `env` *parameter* is immediately shadowed by
`env = self._find_sym_env(target)`, so the frame written is the nearest
enclosing one containing the symbol, never the argument (claim C1). -/
def storeImpl (s : VMState) (envArg : Nat) (pc : Int) : Except Exc StepRes :=
  match s.stack with
  | [] => .error .assertionError
  | val :: rest => do
    let s := { s with stack := rest }
    let target ← s.readInt pc
    let k := target.toNat
    let _ ← s.symbolName k
    let _ := envArg  -- dead, exactly as in the source
    match s.findSymEnv k with
    | some ei => return .next (s.setEnvValue ei k (some val)) (pc + 8)
    | none => do
        let name ← s.symbolName k
        .error (.runtime ("Cannot resolve symbol: " ++ name))

def store (s : VMState) (pc : Int) : Except Exc StepRes := storeImpl s s.env pc

def storetop (s : VMState) (pc : Int) : Except Exc StepRes := storeImpl s s.topenv pc

def declare (s : VMState) (pc : Int) : Except Exc StepRes := do
  let symindex ← s.readInt pc
  let k := symindex.toNat
  let _ ← s.symbolName k  -- the trace message evaluates symbol_name eagerly
  return .next (s.setEnvValue s.env k none) (pc + 8)

def boolCheck (v : Value) : Except Exc Unit :=
  match v with
  | .vtrue => .ok ()
  | .vfalse => .ok ()
  | _ => .error (.runtime "not a conditional value")

def jt (s : VMState) (pc : Int) : Except Exc StepRes :=
  match s.stack with
  | [] => .error .assertionError
  | v :: rest => do
    let s := { s with stack := rest }
    boolCheck v
    let jpc ← s.readInt pc
    if v matches .vtrue then return .next s jpc else return .next s (pc + 8)

def jf (s : VMState) (pc : Int) : Except Exc StepRes :=
  match s.stack with
  | [] => .error .assertionError
  | v :: rest => do
    let s := { s with stack := rest }
    boolCheck v
    let jpc ← s.readInt pc
    if v matches .vfalse then return .next s jpc else return .next s (pc + 8)

def jmp (s : VMState) (pc : Int) : Except Exc StepRes := do
  let jpc ← s.readInt pc
  return .next s jpc

def eq (s : VMState) (pc : Int) : Except Exc StepRes :=
  (comp .ceq s pc).map (fun r => .next r.1 r.2)

def neq (s : VMState) (pc : Int) : Except Exc StepRes :=
  (comp .cne s pc).map (fun r => .next r.1 r.2)

def gt (s : VMState) (pc : Int) : Except Exc StepRes :=
  (comp .cgt s pc).map (fun r => .next r.1 r.2)

def ge (s : VMState) (pc : Int) : Except Exc StepRes :=
  (comp .cge s pc).map (fun r => .next r.1 r.2)

def lt (s : VMState) (pc : Int) : Except Exc StepRes :=
  (comp .clt s pc).map (fun r => .next r.1 r.2)

def le (s : VMState) (pc : Int) : Except Exc StepRes :=
  (comp .cle s pc).map (fun r => .next r.1 r.2)

/-- `nott`: boolean negation in place; a non-boolean top raises the
`vm.py` `ArithmeticError`. -/
def nott (s : VMState) (pc : Int) : Except Exc StepRes :=
  match s.stack with
  | [] => .error .indexError
  | .vtrue :: rest => .ok (.next { s with stack := .vfalse :: rest } pc)
  | .vfalse :: rest => .ok (.next { s with stack := .vtrue :: rest } pc)
  | _ :: _ => .error (.customArith "not only applies to boolean values")

def printt (s : VMState) (pc : Int) : Except Exc StepRes :=
  match s.stack with
  | [] => .error .assertionError
  | v :: rest => .ok (.next { s with stack := rest, output := s.output ++ [v] } pc)

/-- `listt`: pop `n` values (`_pop` asserts on underflow) and `_push` a
list of them in pop order; a negative count loops zero times. -/
def listt (s : VMState) (pc : Int) : Except Exc StepRes := do
  let n ← s.readInt pc
  let k := n.toNat
  if s.stack.length < k then .error .assertionError
  else
    let vals := s.stack.take k
    let s := { s with stack := s.stack.drop k }
    return .next (s.push (.vlist vals)) (pc + 8)

def listCheckType (v : Value) (name : String) : Except Exc Unit :=
  match v with
  | .vlist _ => .ok ()
  | _ => .error (.runtime (name ++ " expects a list"))

def listCheck (v : Value) (name : String) : Except Exc Unit := do
  listCheckType v name
  match v with
  | .vlist [] => .error (.runtime (name ++ " got an empty list"))
  | _ => .ok ()

def head (s : VMState) (pc : Int) : Except Exc StepRes :=
  match s.stack with
  | [] => .error .indexError
  | v :: rest => do
    listCheck v "head"
    match v with
    | .vlist (e :: _) => return .next { s with stack := e :: rest } pc
    | _ => .error .keyError  -- unreachable after listCheck

/-- `tail`: `self.stack[-1].value = self.stack[-1].value[1:]` — an in-place
truncation of the `VList` object; by value here, by reference in the
`RefModel` section (claim C5). -/
def tail (s : VMState) (pc : Int) : Except Exc StepRes :=
  match s.stack with
  | [] => .error .indexError
  | v :: rest => do
    listCheck v "tail"
    match v with
    | .vlist es => return .next { s with stack := Value.vlist (es.drop 1) :: rest } pc
    | _ => .error .keyError  -- unreachable after listCheck

/-- `listcat`: check both tops are lists, pop `lst`, then
`self.stack[-1].value += lst.value` extends the lower list in place (the
popped top becomes the suffix). -/
def listcat (s : VMState) (pc : Int) : Except Exc StepRes :=
  match s.stack with
  | [] => .error .indexError
  | top :: rest =>
    match rest with
    | [] => .error .indexError
    | under :: below => do
      listCheckType top "list concatenation"
      listCheckType under "list concatenation"
      match under, top with
      | .vlist us, .vlist ts =>
          return .next { s with stack := Value.vlist (us ++ ts) :: below } pc
      | _, _ => .error .keyError  -- unreachable after the type checks

def evall (s : VMState) (pc : Int) : Except Exc StepRes := do
  let n ← s.readInt pc
  let raw := s.readBytes (pc + 8) n.toNat
  return .runEval s raw (pc + 8 + n)

/-- `dump` prints diagnostics (ignored here) and pushes unit. -/
def dump (s : VMState) (pc : Int) : Except Exc StepRes :=
  .ok (.next (s.push (.vlist [])) pc)

def newenv (s : VMState) (pc : Int) : Except Exc StepRes :=
  .ok (.next
    { s with
        envs := s.envs ++ [{ values := [], parent := some s.env }],
        env := s.envs.length }
    pc)

/-- `departenv`: `self.env = self.env.parent`.  Leaving the root frame sets
the Python `env` to `None`, and the very next environment access raises
`AttributeError`; the compiler only emits balanced `NEWENV`/`DEPARTENV`
pairs, and the failure is modelled eagerly here. -/
def departenv (s : VMState) (pc : Int) : Except Exc StepRes :=
  match (s.envs.getD s.env default).parent with
  | some p => .ok (.next { s with env := p } pc)
  | none => .error .attributeError

def tailcall (_ : VMState) (_ : Int) : Except Exc StepRes :=
  .error .assertionError  -- assert 0, "XXX IMPLEMENT ME"

/-- The `builtin` dispatch used by `CALL` on a `Builtin`/`Symbol` callee:
map the name back to the corresponding handler (`vm.py` keeps this dict in
sync with `builtins`). -/
def callBuiltin (s : VMState) (pc : Int) (name : String) : Except Exc StepRes :=
  if name = "+" then add s pc
  else if name = "-" then sub s pc
  else if name = "*" then mul s pc
  else if name = "/" then div s pc
  else if name = "%" then mod s pc
  else if name = "=" then eq s pc
  else if name = "!=" then neq s pc
  else if name = "<" then lt s pc
  else if name = "<=" then le s pc
  else if name = ">" then gt s pc
  else if name = ">=" then ge s pc
  else if name = "not" then nott s pc
  else if name = "head" then head s pc
  else if name = "tail" then tail s pc
  else if name = "dump" then dump s pc
  else if name = "^" then xor s pc
  else if name = "&" then andd s pc
  else if name = "|" then orr s pc
  else if name = "~" then inv s pc
  else .error (.runtime ("unrecognized builtin: " ++ name))

/-- `call`: pop the callee.  A `Closure` pushes a return frame and enters a
fresh child environment of the captured one; a `Continuation` takes the
current top of stack as the delivered value, replaces the stack with the
snapshot plus that value, restores the snapshot's return stack and jumps to
the saved position (in Python both lists are the very objects stored in the
continuation); a `Builtin` or `Symbol` runs the builtin inline. -/
def call (s : VMState) (pc : Int) : Except Exc StepRes :=
  match s.stack with
  | [] => .error .assertionError
  | callee :: rest =>
    let s := { s with stack := rest }
    match callee with
    | .closure parent ctape =>
        .ok (.next
          { s with
              rets := ⟨s.tape, pc, s.env⟩ :: s.rets,
              tape := ctape,
              envs := s.envs ++ [{ values := [], parent := some parent }],
              env := s.envs.length }
          0)
    | .cont cstack crets ctape cpc =>
        match s.stack with
        | [] => .error .indexError  -- val = self.stack[-1] on an empty stack
        | val :: _ =>
            .ok (.next { s with stack := val :: cstack, rets := crets, tape := ctape } cpc)
    | .builtin name => callBuiltin s pc name
    | .symbol name => callBuiltin s pc name
    | _ => .error (.runtime "can only apply a continuation, closure or a builtin")

def ret (s : VMState) (pc : Int) : Except Exc StepRes :=
  let _ := pc
  match s.rets with
  | [] => .error .indexError
  | a :: rest => .ok (.next { s with rets := rest, tape := a.tape, env := a.env } a.pc)

/-- Fetch and dispatch one instruction: read the opcode byte, advance past
it, index the `ops` tuple (48 entries, in opcode order — out-of-range
opcodes raise `IndexError` on the tuple), and run the handler. -/
def stepAt (s : VMState) (pc : Int) : Except Exc StepRes := do
  let op ← s.fetch pc
  let pc := pc + 1
  match op with
  | 0 => halt s pc
  | 1 => add s pc
  | 2 => sub s pc
  | 3 => mul s pc
  | 4 => div s pc
  | 5 => xor s pc
  | 6 => mod s pc
  | 7 => andd s pc
  | 8 => orr s pc
  | 9 => inv s pc
  | 10 => pushi s pc
  | 11 => pushf s pc
  | 12 => pushstr s pc
  | 13 => pushsy s pc
  | 14 => pushsyraw s pc
  | 15 => pushtrue s pc
  | 16 => pushfalse s pc
  | 17 => pushunit s pc
  | 18 => pushclosure s pc
  | 19 => pushcont s pc
  | 20 => quote s pc
  | 21 => pop s pc
  | 22 => call s pc
  | 23 => tailcall s pc
  | 24 => ret s pc
  | 25 => jt s pc
  | 26 => jf s pc
  | 27 => jmp s pc
  | 28 => store s pc
  | 29 => storetop s pc
  | 30 => eq s pc
  | 31 => neq s pc
  | 32 => gt s pc
  | 33 => ge s pc
  | 34 => lt s pc
  | 35 => le s pc
  | 36 => nott s pc
  | 37 => declare s pc
  | 38 => printt s pc
  | 39 => listt s pc
  | 40 => head s pc
  | 41 => tail s pc
  | 42 => listcat s pc
  | 43 => evall s pc
  | 44 => dump s pc
  | 45 => newenv s pc
  | 46 => departenv s pc
  | 47 => quasiquote s pc
  | _ => .error .indexError

end VMH

/-! ### The dispatch loop and `VM.run` -/

inductive RawOut where
  | exc (e : Exc) (s : VMState) (pc : Int)
  | fuelOut

/-- The state of a freshly constructed `VM()` about to `run(p)`: one root
environment, empty stack and return stack, tape 0. -/
def freshVMState (p : Program) : VMState :=
  { envs := [{ values := [], parent := none }], env := 0, topenv := 0,
    stack := [], rets := [], tapes := p.tapes, prog := p, tape := 0,
    quoted := 0, quasiquoted := 0, output := [] }

/-- What `evm.run(ep)` raises to its caller, given what its loop raised:
`run` turns `IndexError` into "Program ended abruptly" and its
`ArithmeticError` into an arithmetic runtime error; everything else
propagates unchanged. -/
def subRunExc : Exc → Exc
  | .indexError => .runtime "Program ended abruptly."
  | .customArith m => .runtime ("Arithmetic error: " ++ m)
  | e => e

/-- The `while True` loop of `VM.run`.  The `EVAL` instruction deserializes
its payload and runs it in a fresh VM (`evall` in the source) whose result
value is appended to the operand stack directly (not via `_push`). -/
def loop : Nat → VMState → Int → RawOut
  | 0, _, _ => .fuelOut
  | fuel + 1, s, pc =>
    match VMH.stepAt s pc with
    | .error e => .exc e s pc
    | .ok (.next s' pc') => loop fuel s' pc'
    | .ok (.runEval s' raw pcA) =>
      match Program.deserialize raw with
      | .error .initialMagic => .exc .pyRuntimeError s' pcA
      | .error .endMagic => .exc .pyRuntimeError s' pcA
      | .error .unicodeError => .exc .unicodeError s' pcA
      | .error _ => .exc .structError s' pcA
      | .ok ep =>
        if ep.tapes.length = 0 ∨ (ep.tapes.getD 0 []).length = 0 then
          -- the sub-run returns without executing; evm.stack[-1] raises
          .exc .indexError s' pcA
        else if (ep.tapes.getD 0 []).getLast? ≠ some Op.HALT then
          .exc .assertionError s' pcA
        else
          match loop fuel (freshVMState ep) 0 with
          | .exc .halted sf _ =>
              match sf.stack with
              | [] => .exc .indexError s' pcA
              | v :: _ => loop fuel { s' with stack := v :: s'.stack } pcA
          | .exc e _ _ => .exc (subRunExc e) s' pcA
          | .fuelOut => .fuelOut

/-- The observable result of `VM.run`: a normal return (after `Halted` or
when there is nothing to run), an exception escaping `run`, or fuel
exhaustion of the model. -/
inductive Outcome where
  | ok (s : VMState) (pc : Int)
  | err (e : Exc)
  | fuelOut

/-- `VM.run` on a fresh VM: the empty-program early returns, the
tape-0-ends-in-HALT assertion, the loop, and the `except` clauses that
surface `IndexError` and `ArithmeticError` as `LisbyRuntimeError`. -/
def runVM (fuel : Nat) (p : Program) : Outcome :=
  if p.tapes.length = 0 ∨ (p.tapes.getD 0 []).length = 0 then
    .ok (freshVMState p) 0
  else if (p.tapes.getD 0 []).getLast? ≠ some Op.HALT then .err .assertionError
  else
    match loop fuel (freshVMState p) 0 with
    | .exc .halted s pc => .ok s pc
    | .exc .indexError _ _ => .err (.runtime "Program ended abruptly.")
    | .exc (.customArith m) _ _ => .err (.runtime ("Arithmetic error: " ++ m))
    | .exc e _ _ => .err e
    | .fuelOut => .fuelOut

/-! ## The compiler (`lisby/compiler/compiler.py`)

Emission methods of `Program` first (`lisby/vm/program.py`). -/

/-- `Program.cursor`: the length of the active tape. -/
def Program.cursor (p : Program) : Nat := (p.tapes.getD p.tape []).length

/-- `Program.symbol_find`: `symbols.index`, raising `LisbyRuntimeError`
when absent. -/
def Program.symbolFind (p : Program) (sym : String) : Option Nat :=
  p.symbols.indexOf? sym

/-- `Program.find_or_add_sym`. -/
def Program.findOrAddSym (p : Program) (sym : String) : Nat × Program :=
  match p.symbols.indexOf? sym with
  | some i => (i, p)
  | none => (p.symbols.length, { p with symbols := p.symbols ++ [sym] })

/-- `Program.find_or_add_str`. -/
def Program.findOrAddStr (p : Program) (v : String) : Nat × Program :=
  match p.strings.indexOf? v with
  | some i => (i, p)
  | none => (p.strings.length, { p with strings := p.strings ++ [v] })

/-- `Program.emit`: append one opcode byte to the active tape. -/
def Program.emit (p : Program) (code : Nat) : Program :=
  { p with tapes := p.tapes.set p.tape ((p.tapes.getD p.tape []) ++ [code]) }

/-- `Program.emitraw`: append raw bytes to the active tape. -/
def Program.emitraw (p : Program) (raw : List Nat) : Program :=
  { p with tapes := p.tapes.set p.tape ((p.tapes.getD p.tape []) ++ raw) }

/-- `Program.emitpholder`: eight `0x42` placeholder bytes; returns their
start offset. -/
def Program.emitpholder (p : Program) : Nat × Program :=
  (p.cursor, p.emitraw [0x42, 0x42, 0x42, 0x42, 0x42, 0x42, 0x42, 0x42])

/-- `Program.patch`: overwrite eight bytes.  The `tape` parameter is
ignored — the source writes `self.tapes[self.tape][pc : pc+8] = raw`
(every caller passes `p.tape` anyway). -/
def Program.patch (p : Program) (tape : Nat) (pcStart : Nat) (raw : List Nat) : Program :=
  let _ := tape
  let tp := p.tapes.getD p.tape []
  { p with tapes := p.tapes.set p.tape (tp.take pcStart ++ raw ++ tp.drop (pcStart + 8)) }

/-- `Program.lambda_start`: open a fresh tape and make it active. -/
def Program.lambdaStart (p : Program) : (Nat × Nat) × Program :=
  ((p.tape, p.tapes.length), { p with tapes := p.tapes ++ [[]], tape := p.tapes.length })

/-- `Program.lambda_end`: terminate the lambda tape with `RET` and restore
the original active tape. -/
def Program.lambdaEnd (p : Program) (orig : Nat) : Program :=
  { p.emit Op.RET with tape := orig }

/-- `Compiler._emit_int`: `emitraw(pack("<q", val))`. -/
def Program.emitInt (p : Program) (v : Int) : Program := p.emitraw (encInt64 v)

def builtinOpcode (name : String) : Nat :=
  if name = "+" then Op.ADD
  else if name = "-" then Op.SUB
  else if name = "*" then Op.MUL
  else if name = "/" then Op.DIV
  else if name = "%" then Op.MOD
  else if name = "=" then Op.EQ
  else if name = "!=" then Op.NEQ
  else if name = "<" then Op.LT
  else if name = "<=" then Op.LE
  else if name = ">" then Op.GT
  else if name = ">=" then Op.GE
  else if name = "not" then Op.NOT
  else if name = "head" then Op.HEAD
  else if name = "tail" then Op.TAIL
  else if name = "dump" then Op.DUMP
  else if name = "^" then Op.XOR
  else if name = "&" then Op.AND
  else if name = "|" then Op.OR
  else Op.INV  -- "~"

/-- The `forms` table of `Compiler.__init__`. -/
def formNames : List String :=
  ["let", "define", "lambda", "if", "begin", "set!", "display", "list",
   "::", "eval", "or", "and", "call/cc", "defmacro"]

/-- A stored macro: `{name → (params, body)}` from `defmacro`. -/
structure MacroDef where
  params : List String
  body : List Node

/-- Compiler state: the program being emitted into and the macro table. -/
structure CState where
  prog : Program
  macros : List (String × MacroDef) := []

inductive CErr where
  | syntaxErr (msg : String)   -- LisbySyntaxError
  | runtimeErr (msg : String)  -- LisbyRuntimeError (e.g. Program.symbol_find)
  | fuelOut
deriving DecidableEq

/-- `Compiler._push_symbol`. -/
def pushSymbolE (c : CState) (name : String) : CState :=
  let (idx, p) := c.prog.findOrAddSym name
  { c with prog := (p.emit Op.PUSHSY).emitInt idx }

/-- `Compiler._push_string`. -/
def pushStringE (c : CState) (v : String) : CState :=
  let (idx, p) := c.prog.findOrAddStr v
  { c with prog := (p.emit Op.PUSHSTR).emitInt idx }

/-- `Compiler._store`. -/
def storeE (c : CState) (name : String) : CState :=
  let (idx, p) := c.prog.findOrAddSym name
  { c with prog := (p.emit Op.STORE).emitInt idx }

/-- `Compiler._storetop`. -/
def storetopE (c : CState) (name : String) : CState :=
  let (idx, p) := c.prog.findOrAddSym name
  { c with prog := (p.emit Op.STORETOP).emitInt idx }

/-- `Compiler._atom`: emit the push for a literal; float literals emit
their bit pattern (`pack("<d", ...)`). -/
def atomE (c : CState) (a : Node) : Except CErr CState :=
  match a with
  | .int i => .ok { c with prog := (c.prog.emit Op.PUSHI).emitInt i }
  | .float bits => .ok { c with prog := (c.prog.emit Op.PUSHF).emitraw (encInt64 bits) }
  | .symbol s => .ok (pushSymbolE c s)
  | .ttrue => .ok { c with prog := c.prog.emit Op.PUSHTRUE }
  | .tfalse => .ok { c with prog := c.prog.emit Op.PUSHFALSE }
  | .str v => .ok (pushStringE c v)
  | .unit => .ok { c with prog := c.prog.emit Op.PUSHUNIT }
  | _ => .error (.syntaxErr "Atom expected")

/-- `Compiler._defmacro` — records the macro, rejecting a redefinition or a
clash with a special form. -/
def defmacroE (c : CState) (node : Node) (args : List Node) : Except CErr CState :=
  let _ := node
  if args.length < 2 then .error (.syntaxErr "defmacro needs at least two parameters")
  else
    match args with
    | .application f fas :: rest =>
        let rawparams := f :: fas
        -- `tolist()` of an Application is never empty, so the
        -- `len(rawparams) == 0` guard of the source cannot fire.
        let symNames := rawparams.mapM (fun p => match p with
          | .symbol s => some s
          | _ => none)
        match symNames with
        | none => .error (.syntaxErr "Macro parameter not a symbol")
        | some [] => .error (.syntaxErr "Need at least macro name")
        | some (name :: ps) =>
            if (c.macros.lookup name).isSome then
              .error (.syntaxErr ("Macro " ++ name ++ " already defined"))
            else if formNames.contains name then
              .error (.syntaxErr ("Macro name " ++ name ++ " collides with a special form"))
            else .ok { c with macros := c.macros ++ [(name, ⟨ps, rest⟩)] }
    | _ :: _ => .error (.syntaxErr "No macro parameters given")
    | [] => .error (.syntaxErr "defmacro needs at least two parameters")

/-- `Compiler._eval`: arity check, emit `EVAL`. -/
def evalFormE (c : CState) (args : List Node) : Except CErr CState :=
  if args.length ≠ 1 then .error (.syntaxErr "eval expects one parameter")
  else .ok { c with prog := c.prog.emit Op.EVAL }

/-- `Compiler._lambda_unpacked`'s parameter loop: `DECLARE idx` then
`STORE idx` for each parameter symbol (non-symbols are a syntax error). -/
def declareParamsC : List Node → Program → Except CErr Program
  | [], p => .ok p
  | .symbol s :: rest, p =>
      let (idx, p) := p.findOrAddSym s
      declareParamsC rest ((((p.emit Op.DECLARE).emitInt idx).emit Op.STORE).emitInt idx)
  | _ :: _, _ => .error (.syntaxErr "parameter has to be a symbol")

/-! The recursive traversal.  Every function takes fuel and spends one unit
per call; macro expansion can make the source recursion non-structural
(`test_defmacro_looper` relies on a macro whose expansion compiles a
self-calling lambda), so plain fuel keeps the model total. -/

mutual

/-- `Compiler._compile`. -/
def compileC : Nat → CState → Node → Except CErr CState
  | 0, _, _ => .error .fuelOut
  | fuel + 1, c, node =>
    match node with
    | .application f as => applicationC fuel c (.application f as)
    | .quoted inner => quotedC fuel c (.quoted inner) 0
    | .quasiquoted inner => quasiquotedC fuel c (.quasiquoted inner) 0
    | a => atomE c a

/-- `Compiler._application`. -/
def applicationC : Nat → CState → Node → Except CErr CState
  | 0, _, _ => .error .fuelOut
  | fuel + 1, c, node =>
    match node with
    | .application app as =>
      match app with
      | .symbol name =>
          if builtinNames.contains name then builtinC fuel c name as
          else if name = "let" then letC fuel c as
          else if name = "define" then defineC fuel c as
          else if name = "lambda" then lambdaC fuel c as
          else if name = "if" then ifC fuel c as
          else if name = "begin" then beginC fuel c as
          else if name = "set!" then setC fuel c as
          else if name = "display" then displayC fuel c as
          else if name = "list" then listC fuel c as
          else if name = "::" then concatListC fuel c as
          else if name = "eval" then evalFormE c as
          else if name = "or" then orC fuel c as
          else if name = "and" then andC fuel c as
          else if name = "call/cc" then callccC fuel c as
          else if name = "defmacro" then defmacroE c (.application app as) as
          else
            match c.macros.lookup name with
            | some m => expandMacroC fuel c m as
            | none => symbolApplyC fuel c name as
      | .application f2 as2 => do
          let c ← compileListC fuel c as
          let c ← applicationC fuel c (.application f2 as2)
          return { c with prog := c.prog.emit Op.CALL }
      | _ => .error (.syntaxErr "Cannot apply")
    | _ => .error (.syntaxErr "Cannot apply")

/-- `Compiler._builtin`: args right-to-left, then the dedicated opcode. -/
def builtinC : Nat → CState → String → List Node → Except CErr CState
  | 0, _, _, _ => .error .fuelOut
  | fuel + 1, c, name, args => do
      let c ← compileListC fuel c args
      return { c with prog := c.prog.emit (builtinOpcode name) }

/-- `Compiler._symbol_apply`: the callee must already be interned
(`symbol_find` raises `LisbyRuntimeError` otherwise); args right-to-left,
push the callee symbol, `CALL`. -/
def symbolApplyC : Nat → CState → String → List Node → Except CErr CState
  | 0, _, _, _ => .error .fuelOut
  | fuel + 1, c, name, args =>
    match c.prog.symbolFind name with
    | none => .error (.runtimeErr ("symbol " ++ name ++ " not found"))
    | some _ => do
        let c ← compileListC fuel c args
        let c := pushSymbolE c name
        return { c with prog := c.prog.emit Op.CALL }

/-- `Macro.expand`: arity check, substitute (from a fresh copy of the
body), compile each substituted body node in order. -/
def expandMacroC : Nat → CState → MacroDef → List Node → Except CErr CState
  | 0, _, _, _ => .error .fuelOut
  | fuel + 1, c, m, args =>
    if args.length ≠ m.params.length then
      .error (.syntaxErr "Macro arity mismatch")
    else
      compileEachC fuel c ((expandList m.params args m.body 0))

/-- The `for node in self.body: ... self.compiler._compile(...)` loop of
`Macro.expand` (no `POP` between the nodes). -/
def compileEachC : Nat → CState → List Node → Except CErr CState
  | 0, _, _ => .error .fuelOut
  | _ + 1, c, [] => .ok c
  | fuel + 1, c, n :: ns => do
      let c ← compileC fuel c n
      compileEachC fuel c ns

/-- `Compiler._or` (short-circuiting boolean OR). -/
def orC : Nat → CState → List Node → Except CErr CState
  | 0, _, _ => .error .fuelOut
  | fuel + 1, c, args =>
    match args with
    | [first, second] => do
        let c ← compileC fuel c first
        let (phTrue, p) := (c.prog.emit Op.JT).emitpholder
        let c ← compileC fuel { c with prog := p } second
        let (phFalse, p) := (c.prog.emit Op.JF).emitpholder
        let pcTrue := p.cursor
        let p := (p.emit Op.PUSHTRUE).emit Op.JMP
        let (phEnd, p) := p.emitpholder
        let pcFalse := p.cursor
        let p := p.emit Op.PUSHFALSE
        let pcEnd := p.cursor
        let p := p.patch p.tape phFalse (encInt64 pcFalse)
        let p := p.patch p.tape phTrue (encInt64 pcTrue)
        let p := p.patch p.tape phEnd (encInt64 pcEnd)
        return { c with prog := p }
    | _ => .error (.syntaxErr "or expects two arguments")

/-- `Compiler._and` (short-circuiting boolean AND). -/
def andC : Nat → CState → List Node → Except CErr CState
  | 0, _, _ => .error .fuelOut
  | fuel + 1, c, args =>
    match args with
    | [first, second] => do
        let c ← compileC fuel c first
        let (phFalse, p) := (c.prog.emit Op.JF).emitpholder
        let c ← compileC fuel { c with prog := p } second
        let (phFalse2, p) := (c.prog.emit Op.JF).emitpholder
        let p := (p.emit Op.PUSHTRUE).emit Op.JMP
        let (phEnd, p) := p.emitpholder
        let pcFalse := p.cursor
        let p := p.emit Op.PUSHFALSE
        let pcEnd := p.cursor
        let p := p.patch p.tape phFalse (encInt64 pcFalse)
        let p := p.patch p.tape phFalse2 (encInt64 pcFalse)
        let p := p.patch p.tape phEnd (encInt64 pcEnd)
        return { c with prog := p }
    | _ => .error (.syntaxErr "and expects two arguments")

/-- `Compiler._concat_list`: at least two args, compiled left-to-right,
then `n-1` `LISTCAT`s. -/
def concatListC : Nat → CState → List Node → Except CErr CState
  | 0, _, _ => .error .fuelOut
  | fuel + 1, c, args =>
    if args.length < 2 then
      .error (.syntaxErr "List concatenation needs at least two parameters")
    else do
      let c ← compileEachC fuel c args
      return { c with prog :=
        (List.range (args.length - 1)).foldl (fun p _ => p.emit Op.LISTCAT) c.prog }

/-- `Compiler._callcc` (compiler.py lines 273-300): `PUSHCONT` with a
placeholder, the lambda as a closure, `CALL`, then patch the placeholder
with the post-`CALL` cursor. -/
def callccC : Nat → CState → List Node → Except CErr CState
  | 0, _, _ => .error .fuelOut
  | fuel + 1, c, args =>
    match args with
    | [param] =>
      match param with
      | .application f fas =>
        let parargs := f :: fas
        match parargs with
        | .symbol lam :: binds :: exprs =>
          if lam ≠ "lambda" then .error (.syntaxErr "call/cc parameter has to be a lambda")
          else
            match binds with
            | .application bf bas =>
              if (bf :: bas).length ≠ 1 then
                .error (.syntaxErr "call/cc lambda takes one parameter")
              else do
                let (phContEnd, p) := (c.prog.emit Op.PUSHCONT).emitpholder
                let c ← lambdaUnpackedC fuel { c with prog := p } (bf :: bas) exprs
                let p := c.prog.emit Op.CALL
                let pcAfter := p.cursor
                let p := p.patch p.tape phContEnd (encInt64 pcAfter)
                return { c with prog := p }
            | _ => .error (.syntaxErr "call/cc lambda parameters not a list")
        | _ => .error (.syntaxErr "call/cc parameter has to be a lambda")
      | _ => .error (.syntaxErr "call/cc parameter has to be a lambda")
    | _ => .error (.syntaxErr "call/cc accepts only one paramter")

/-- `Compiler._list`: args in reverse, then `LIST n`. -/
def listC : Nat → CState → List Node → Except CErr CState
  | 0, _, _ => .error .fuelOut
  | fuel + 1, c, args => do
      let c ← compileListC fuel c args
      return { c with prog := (c.prog.emit Op.LIST).emitInt args.length }

/-- `Compiler._display`: compile and `PRINT` each arg, print a newline,
push unit. -/
def displayC : Nat → CState → List Node → Except CErr CState
  | 0, _, _ => .error .fuelOut
  | fuel + 1, c, args => do
      let c ← displayArgsC fuel c args
      let c := pushStringE c "\x0a"
      return { c with prog := ((c.prog.emit Op.PRINT).emit Op.PUSHUNIT) }

def displayArgsC : Nat → CState → List Node → Except CErr CState
  | 0, _, _ => .error .fuelOut
  | _ + 1, c, [] => .ok c
  | fuel + 1, c, a :: as => do
      let c ← compileC fuel c a
      displayArgsC fuel { c with prog := c.prog.emit Op.PRINT } as

/-- `Compiler._begin`. -/
def beginC : Nat → CState → List Node → Except CErr CState
  | 0, _, _ => .error .fuelOut
  | fuel + 1, c, args =>
    if args.length = 0 then .error (.syntaxErr "begin form needs at least one expression")
    else compileExprsC fuel c args

/-- `Compiler._set`: compile the value, `STORE`, push unit. -/
def setC : Nat → CState → List Node → Except CErr CState
  | 0, _, _ => .error .fuelOut
  | fuel + 1, c, args =>
    match args with
    | [target, val] =>
      match target with
      | .symbol name => do
          let c ← compileC fuel c val
          let c := storeE c name
          return { c with prog := c.prog.emit Op.PUSHUNIT }
      | _ => .error (.syntaxErr "set! target should be a symbol")
    | _ => .error (.syntaxErr "set! form expects two arguments")

/-- `Compiler._if`: `JF` over the then-branch, `JMP` over the else-branch,
both patched. -/
def ifC : Nat → CState → List Node → Except CErr CState
  | 0, _, _ => .error .fuelOut
  | fuel + 1, c, args =>
    match args with
    | [cond, then_, else_] => do
        let c ← compileC fuel c cond
        let (phFalse, p) := (c.prog.emit Op.JF).emitpholder
        let c ← compileC fuel { c with prog := p } then_
        let (phEnd, p) := (c.prog.emit Op.JMP).emitpholder
        let pcElse := p.cursor
        let p := p.patch p.tape phFalse (encInt64 pcElse)
        let c ← compileC fuel { c with prog := p } else_
        let pcEnd := c.prog.cursor
        return { c with prog := c.prog.patch c.prog.tape phEnd (encInt64 pcEnd) }
    | _ => .error (.syntaxErr "if expects three arguments")

/-- `Compiler._lambda`. -/
def lambdaC : Nat → CState → List Node → Except CErr CState
  | 0, _, _ => .error .fuelOut
  | fuel + 1, c, args =>
    match args with
    | first :: exprs =>
      if exprs.length = 0 then
        .error (.syntaxErr "lambda form needs at least two parameters")
      else
        match first with
        | .application f fas => lambdaUnpackedC fuel c (f :: fas) exprs
        | .unit => lambdaUnpackedC fuel c [] exprs
        | _ => .error (.syntaxErr "lambda parameters have to be a list")
    | [] => .error (.syntaxErr "lambda form needs at least two parameters")

/-- `Compiler._lambda_unpacked`: open a fresh tape, `DECLARE`+`STORE` each
parameter, compile the body as an expression sequence, `RET`, then on the
original tape `PUSHCLOSURE new_tape`. -/
def lambdaUnpackedC : Nat → CState → List Node → List Node → Except CErr CState
  | 0, _, _, _ => .error .fuelOut
  | fuel + 1, c, params, exprs => do
      let ((orig, tnew), p) := c.prog.lambdaStart
      let p ← declareParamsC params p
      let c ← compileExprsC fuel { c with prog := p } exprs
      let p := c.prog.lambdaEnd orig
      return { c with prog := (p.emit Op.PUSHCLOSURE).emitInt tnew }

/-- `Compiler._define`. -/
def defineC : Nat → CState → List Node → Except CErr CState
  | 0, _, _ => .error .fuelOut
  | fuel + 1, c, args =>
    match args with
    | binding :: exprs =>
      if exprs.length = 0 then .error (.syntaxErr "define needs two parameters")
      else do
        let c ←
          match binding with
          | .symbol name =>
              if exprs.length > 1 then
                .error (.syntaxErr "symbol definition accepts only one expression")
              else defineSymbolC fuel c name (exprs.getD 0 .unit)
          | .application f fas => defineLambdaC fuel c (f :: fas) exprs
          | _ => .error (.syntaxErr "def should have binding expr")
        return { c with prog := c.prog.emit Op.PUSHUNIT }
    | [] => .error (.syntaxErr "define needs two parameters")

/-- `Compiler._define_symbol`: compile the expression, `DECLARE` the name,
`STORETOP` it. -/
def defineSymbolC : Nat → CState → String → Node → Except CErr CState
  | 0, _, _, _ => .error .fuelOut
  | fuel + 1, c, name, expr => do
      let c ← compileC fuel c expr
      let (idx, p) := c.prog.findOrAddSym name
      let c := { c with prog := (p.emit Op.DECLARE).emitInt idx }
      return storetopE c name

/-- `Compiler._define_lambda`: `DECLARE` the name, compile the lambda,
`STORETOP` the name. -/
def defineLambdaC : Nat → CState → List Node → List Node → Except CErr CState
  | 0, _, _, _ => .error .fuelOut
  | fuel + 1, c, args, exprs =>
    match args.mapM (fun a => match a with | .symbol s => some s | _ => none) with
    | none => .error (.syntaxErr "lambda argument must be a symbol")
    | some [] => .error (.syntaxErr "lambda definition needs at least binding name")
    | some (name :: _) => do
        let (idx, p) := c.prog.findOrAddSym name
        let c := { c with prog := (p.emit Op.DECLARE).emitInt idx }
        let c ← lambdaUnpackedC fuel c (args.drop 1) exprs
        return storetopE c name

/-- `Compiler._let`: `NEWENV`, then per binding `DECLARE`, compile the
value, `STORE`; then the body sequence and `DEPARTENV`. -/
def letC : Nat → CState → List Node → Except CErr CState
  | 0, _, _ => .error .fuelOut
  | fuel + 1, c, args =>
    match args with
    | rawParams :: exprs =>
      if exprs.length = 0 then .error (.syntaxErr "Invalid let form")
      else
        match rawParams with
        | .application f fas => do
            let c := { c with prog := c.prog.emit Op.NEWENV }
            let c ← letBindingsC fuel c (f :: fas)
            let c ← compileExprsC fuel c exprs
            return { c with prog := c.prog.emit Op.DEPARTENV }
        | _ => .error (.syntaxErr "Let parameters not a list")
    | [] => .error (.syntaxErr "Invalid let form")

def letBindingsC : Nat → CState → List Node → Except CErr CState
  | 0, _, _ => .error .fuelOut
  | _ + 1, c, [] => .ok c
  | fuel + 1, c, rawParam :: rest =>
    match rawParam with
    | .application bf bas =>
      match bf :: bas with
      | [binding, value] =>
        match binding with
        | .symbol name => do
            let (idx, p) := c.prog.findOrAddSym name
            let c := { c with prog := (p.emit Op.DECLARE).emitInt idx }
            let c ← compileC fuel c value
            letBindingsC fuel (storeE c name) rest
        | _ => .error (.syntaxErr "Let binding not a symbol")
      | _ => .error (.syntaxErr "Expecting one binding value")
    | _ => .error (.syntaxErr "Let parameter not a list")

/-- `Compiler._quoted`. -/
def quotedC : Nat → CState → Node → Int → Except CErr CState
  | 0, _, _, _ => .error .fuelOut
  | fuel + 1, c, node, level =>
    match node with
    | .quoted q => quotedContentsC fuel c q level
    | _ => .error (.syntaxErr "quoted: not a Quoted node")

/-- `Compiler._quoted_contents`: lists recurse over their members in
reverse at level 0 and wrap with `QUOTED level` + `LIST n`; symbols emit
`QUOTED level` + `PUSHSYRAW`; a nested `Quoted` recurses one level up;
other atoms emit `QUOTED level` before the push. -/
def quotedContentsC : Nat → CState → Node → Int → Except CErr CState
  | 0, _, _, _ => .error .fuelOut
  | fuel + 1, c, q, level =>
    match q with
    | .application f fas => do
        let members := f :: fas
        let c ← quotedMembersC fuel c members.reverse
        let p := (c.prog.emit Op.QUOTED).emitInt level
        return { c with prog := (p.emit Op.LIST).emitInt members.length }
    | .symbol s =>
        let p := (c.prog.emit Op.QUOTED).emitInt level
        let (idx, p) := p.findOrAddSym s
        return { c with prog := (p.emit Op.PUSHSYRAW).emitInt idx }
    | .quoted inner => quotedC fuel c (.quoted inner) (level + 1)
    | a =>
        let c := { c with prog := (c.prog.emit Op.QUOTED).emitInt level }
        atomE c a

def quotedMembersC : Nat → CState → List Node → Except CErr CState
  | 0, _, _ => .error .fuelOut
  | _ + 1, c, [] => .ok c
  | fuel + 1, c, m :: ms => do
      let c ← quotedContentsC fuel c m 0
      quotedMembersC fuel c ms

/-- `Compiler._quasiquoted`. -/
def quasiquotedC : Nat → CState → Node → Int → Except CErr CState
  | 0, _, _, _ => .error .fuelOut
  | fuel + 1, c, node, level =>
    match node with
    | .quasiquoted q => quasiquotedContentsC fuel c q level
    | _ => .error (.syntaxErr "quasiquoted: not a Quasiquoted node")

/-- `Compiler._quasiquoted_contents`: like the quoted case, but an
`Unquoted` at level 0 compiles its payload as an ordinary expression, at
positive levels descends as data, and below level 0 is a syntax error. -/
def quasiquotedContentsC : Nat → CState → Node → Int → Except CErr CState
  | 0, _, _, _ => .error .fuelOut
  | fuel + 1, c, q, level =>
    match q with
    | .application f fas => do
        let members := f :: fas
        let c ← quasiMembersC fuel c members.reverse
        let p := (c.prog.emit Op.QUASIQUOTED).emitInt level
        return { c with prog := (p.emit Op.LIST).emitInt members.length }
    | .symbol s =>
        let p := (c.prog.emit Op.QUASIQUOTED).emitInt level
        let (idx, p) := p.findOrAddSym s
        return { c with prog := (p.emit Op.PUSHSYRAW).emitInt idx }
    | .quasiquoted inner => quasiquotedC fuel c (.quasiquoted inner) (level + 1)
    | .unquoted inner =>
        if level < 0 then .error (.syntaxErr "Unquoting too hard")
        else if level = 0 then compileC fuel c inner
        else quasiquotedContentsC fuel c inner (level - 1)
    | a =>
        let c :=
          if level ≥ 0 then
            { c with prog := (c.prog.emit Op.QUASIQUOTED).emitInt level }
          else c
        atomE c a

def quasiMembersC : Nat → CState → List Node → Except CErr CState
  | 0, _, _ => .error .fuelOut
  | _ + 1, c, [] => .ok c
  | fuel + 1, c, m :: ms => do
      let c ← quasiquotedContentsC fuel c m 0
      quasiMembersC fuel c ms

/-- `Compiler._compile_exprs`: the body sequence, with a `POP` between
consecutive expressions so only the last value survives. -/
def compileExprsC : Nat → CState → List Node → Except CErr CState
  | 0, _, _ => .error .fuelOut
  | _ + 1, c, [] => .ok c
  | fuel + 1, c, [e] => compileC fuel c e
  | fuel + 1, c, e :: rest => do
      let c ← compileC fuel c e
      compileExprsC fuel { c with prog := c.prog.emit Op.POP } rest

/-- `Compiler._compile_list`: compile the nodes in reverse order. -/
def compileListC : Nat → CState → List Node → Except CErr CState
  | 0, _, _ => .error .fuelOut
  | fuel + 1, c, nodes => compileEachC fuel c nodes.reverse

end

/-- `Compiler.compile`: compile the forest into the program, then append
`HALT`. -/
def compileForest (fuel : Nat) (c : CState) (forest : List Node) : Except CErr CState := do
  let c ← compileEachC fuel c forest
  return { c with prog := c.prog.emit Op.HALT }

/-- The whole pipeline on already-parsed trees: compile into a fresh
program and execute on a fresh VM (`TestSystem.invoke`). -/
def compileAndRun (fuel : Nat) (forest : List Node) : Except CErr Outcome := do
  let c ← compileForest fuel { prog := {}, macros := [] } forest
  return runVM fuel c.prog

/-! ## End-to-end results used by the claims -/

/-- The top of the final operand stack after a successful compile + run. -/
def resultTop : Except CErr Outcome → Option Value
  | .ok (.ok s _) => s.stack.head?
  | _ => none

/-- Whether the pipeline compiled and the VM returned normally. -/
def ranOk : Except CErr Outcome → Bool
  | .ok (.ok _ _) => true
  | _ => false

/-- The entry stored for symbol `k` in arena frame `ei` of the final state
(`some none` is the `DECLARE` sentinel). -/
def envBinding (r : Except CErr Outcome) (ei k : Nat) : Option (Option Value) :=
  match r with
  | .ok (.ok s _) => lookupEntry (s.envs.getD ei default).values k
  | _ => none

/-- `(+ 10 (call/cc (lambda (k) (k 1) 2)))` as parsed. -/
def contTestProgram : Node :=
  .application (.symbol "+") [.int 10,
    .application (.symbol "call/cc") [
      .application (.symbol "lambda") [
        .application (.symbol "k") [],
        .application (.symbol "k") [.int 1],
        .int 2]]]

/-- The mirrored `(+ (call/cc (lambda (k) (k 1) 2)) 10)`: the `10` is on
the operand stack when `PUSHCONT` runs. -/
def contMirrorProgram : Node :=
  .application (.symbol "+") [
    .application (.symbol "call/cc") [
      .application (.symbol "lambda") [
        .application (.symbol "k") [],
        .application (.symbol "k") [.int 1],
        .int 2]],
    .int 10]

/-- `(/ 1 0)` as parsed. -/
def divZeroProgram : Node := .application (.symbol "/") [.int 1, .int 0]

/-- `''(1 '2 ''x)` as parsed. -/
def quotedIdentityProgram : Node :=
  .quoted (.quoted (.application (.int 1)
    [.quoted (.int 2), .quoted (.quoted (.symbol "x"))]))

/-- `(define x 1) (let ((x 2)) (define x 3)) x` as parsed: the inner
`define` emits `STORETOP x` while the `let` frame also contains `x`. -/
def storetopForest : List Node := [
  .application (.symbol "define") [.symbol "x", .int 1],
  .application (.symbol "let") [
    .application (.application (.symbol "x") [.int 2]) [],
    .application (.symbol "define") [.symbol "x", .int 3]],
  .symbol "x"]

set_option maxRecDepth 100000 in
/-- C3: compiling and running `(+ 10 (call/cc (lambda (k) (k 1) 2)))`
terminates normally with the integer `11` on top of the operand stack. -/
theorem claim_C3_continuation_eleven :
    ranOk (compileAndRun 1000 [contTestProgram]) = true ∧
    resultTop (compileAndRun 1000 [contTestProgram]) = some (Value.int 11) := by
  constructor
  · rfl
  · rfl

set_option maxRecDepth 100000 in
/-- C9: `(/ 1 0)` does *not* surface as a lisby runtime error: Python's
`ZeroDivisionError` subclasses the *built-in* `ArithmeticError`, while the
`except ArithmeticError` in `VM.run` refers to the `vm.py`-local class of
the same name, so the exception escapes the dispatch loop uncaught. -/
theorem claim_C9_div_by_zero_uncaught :
    compileAndRun 1000 [divZeroProgram] = .ok (Outcome.err Exc.zeroDivision) ∧
    (∀ m, Exc.zeroDivision ≠ Exc.runtime m) ∧
    (∀ m, Exc.zeroDivision ≠ Exc.customArith m) := by
  refine ⟨rfl, ?_, ?_⟩
  · intro m h; cases h
  · intro m h; cases h

set_option maxRecDepth 400000 in
/-- C1: at the failing input `(define x 1) (let ((x 2)) (define x 3)) x`,
the inner `STORETOP x` writes the `let` frame (arena index 1), because
`VM._store` discards its `topenv` argument and re-resolves the frame with
`_find_sym_env`; the root frame keeps `x = 1` and the program evaluates to
`1`, where the claim demands the root frame receive `3`. -/
theorem claim_C1_storetop_behavior :
    resultTop (compileAndRun 1000 storetopForest) = some (Value.int 1) ∧
    envBinding (compileAndRun 1000 storetopForest) 0 0 = some (some (Value.int 1)) ∧
    envBinding (compileAndRun 1000 storetopForest) 1 0 = some (some (Value.int 3)) := by
  refine ⟨rfl, rfl, rfl⟩

/-- The VM state about to execute the payload of a `PUSHCONT` (patched to
resume at 19) with the single operand `10` on the stack — the state reached
inside `contMirrorProgram`. -/
def pushcontDemoState : VMState :=
  { envs := [{ values := [], parent := none }], env := 0, topenv := 0,
    stack := [Value.int 10], rets := [], tapes := [encInt64 19],
    prog := {}, tape := 0, quoted := 0, quasiquoted := 0, output := [] }

set_option maxRecDepth 400000 in
/-- C2: `pushcont` stores `self.stack[:-2]` — with one operand on the
stack the snapshot is empty, not the entire current operand stack; and the
mirrored continuation program consequently dies with "Program ended
abruptly" instead of computing 11.  (Additionally `self.rets` is stored by
reference, so the `CALL` that follows `PUSHCONT` appends a return frame
into the captured list; the by-value refutation above already falsifies
the claim.) -/
theorem claim_C2_pushcont_truncates_snapshot :
    VMH.pushcont pushcontDemoState 0 =
      .ok (.next { pushcontDemoState with
        stack := Value.cont [] [] 0 19 :: pushcontDemoState.stack } 8) ∧
    pushcontDemoState.stack = [Value.int 10] ∧
    ([] : List Value) ≠ [Value.int 10] ∧
    compileAndRun 1000 [contMirrorProgram]
      = .ok (Outcome.err (Exc.runtime "Program ended abruptly.")) := by
  refine ⟨rfl, rfl, ?_, rfl⟩
  intro h; cases h

set_option maxRecDepth 100000 in
/-- C6, counterexample: `''(1 '2 ''x)` evaluates to a `Quoted` wrapper of
degree **1** (top-level quotation consumes one level: `_compile` enters
`_quoted` at level 0, which unwraps the first `Quoted`), not the degree 2
the claim requires. -/
theorem claim_C6_counterexample :
    (match resultTop (compileAndRun 1000 [quotedIdentityProgram]) with
      | some (Value.quotedV _ d) => some d
      | _ => none) = some 1 ∧ (1 : Int) ≠ 2 := by
  refine ⟨rfl, by decide⟩

set_option maxRecDepth 100000 in
/-- C6, amended: `''(1 '2 ''x)` evaluates to a `Quoted` list of degree 1
(the top-level quotation drops one level) whose first element is the plain
integer 1, whose second is the integer 2 quoted to degree 1, and whose
third is the symbol `x` quoted to degree 2 — exactly the shape the
repository's own `test_quoted_list` asserts. -/
theorem claim_C6_quoted_identity :
    resultTop (compileAndRun 1000 [quotedIdentityProgram]) =
      some (Value.quotedV (Value.vlist [Value.int 1,
        Value.quotedV (Value.int 2) 1,
        Value.quotedV (Value.symbol "x") 2]) 1) := by
  rfl

/-- C10: when `DECLARE` has installed the `None` sentinel for a symbol and
no `STORE` has replaced it, `PUSHSY` finds the entry (`_find_sym_env`
treats the dict hit as a successful resolution), then `None.copy()` raises
`AttributeError` — no value is pushed, no "Cannot resolve symbol" runtime
error is raised, and `AttributeError` belongs to neither user-visible
error family.  Reachable from `(let ((x x)) x)`. -/
theorem claim_C10_pushsy_declared_unset (s : VMState) (pc : Int) (i : Int) (ei : Nat)
    (hread : s.readInt pc = .ok i)
    (hfind : s.findSymEnv i.toNat = some ei)
    (hentry : lookupEntry (s.envs.getD ei default).values i.toNat = some none) :
    VMH.pushsy s pc = .error .attributeError ∧
    (∀ m, Exc.attributeError ≠ Exc.runtime m) ∧
    (∀ m, Exc.attributeError ≠ Exc.customArith m) := by
  refine ⟨?_, ?_, ?_⟩
  · simp only [VMH.pushsy, hread, hfind, hentry, bind, Except.bind]
  · intro m h
    cases h
  · intro m h
    cases h

/-- The state after `NEWENV; DECLARE x` inside `(let ((x x)) x)`: the
current frame holds the sentinel for symbol 0, and the tape offers the
`PUSHSY 0` payload. -/
def declaredUnsetState : VMState :=
  { envs := [{ values := [(0, none)], parent := none }], env := 0, topenv := 0,
    stack := [], rets := [], tapes := [encInt64 0],
    prog := { symbols := ["x"] }, tape := 0, quoted := 0, quasiquoted := 0,
    output := [] }

theorem claim_C10_pushsy_declared_unset_witness :
    VMH.pushsy declaredUnsetState 0 = .error .attributeError ∧
    (∀ m, Exc.attributeError ≠ Exc.runtime m) ∧
    (∀ m, Exc.attributeError ≠ Exc.customArith m) :=
  claim_C10_pushsy_declared_unset declaredUnsetState 0 0 0 rfl rfl rfl

/-! ## Reference semantics of list payloads (`VList`) — claim C5

The Python `VList` holds its elements in a mutable list object; `TAIL`
truncates and `LISTCAT` extends that object *in place*, and bindings,
stack slots and other lists hold references to it.  To state the
copy-on-lookup contract faithfully this section gives list payloads an
explicit heap of cells: a `VList` value is `HVal.vlist cell`, `cell`
indexing `Heap`.  `VList.copy` is `copy.deepcopy` of the payload, which
allocates fresh cells for the whole list structure.  Scalar variants copy
as `self` and need no cells; `Closure`/`Continuation`/`Builtin` (also
`self`-copying, and not list-bearing in the contract) are omitted. -/

namespace RefModel

inductive HVal where
  | int (i : Int)
  | str (s : String)
  | sym (s : String)
  | htrue
  | hfalse
  | vlist (cell : Nat)
  | quotedH (v : HVal) (deg : Int)
  | quasiquotedH (v : HVal) (deg : Int)
  | unquotedH (v : HVal)
deriving DecidableEq

abbrev Heap := List (List HVal)

mutual

/-- `Value.copy` with reference semantics: scalars return themselves,
`VList.copy` deep-copies the payload into *fresh* cells (threading the
heap), the quotation wrappers copy their payload.  Fuel bounds the
recursion through cells; `none` is exhaustion (Python's `deepcopy`
terminates on the acyclic heaps the language can build). -/
def copyHV : Nat → Heap → HVal → Option (HVal × Heap)
  | 0, _, _ => none
  | fuel + 1, h, v =>
    match v with
    | .vlist c => do
        let (es, h₂) ← copyCells fuel h (h.getD c [])
        some (.vlist h₂.length, h₂ ++ [es])
    | .quotedH w d => do
        let (w', h₂) ← copyHV fuel h w
        some (.quotedH w' d, h₂)
    | .quasiquotedH w d => do
        let (w', h₂) ← copyHV fuel h w
        some (.quasiquotedH w' d, h₂)
    | .unquotedH w => do
        let (w', h₂) ← copyHV fuel h w
        some (.unquotedH w', h₂)
    | w => some (w, h)

def copyCells : Nat → Heap → List HVal → Option (List HVal × Heap)
  | 0, _, _ => none
  | _ + 1, h, [] => some ([], h)
  | fuel + 1, h, v :: vs => do
      let (v', h₂) ← copyHV fuel h v
      let (vs', h₃) ← copyCells fuel h₂ vs
      some (v' :: vs', h₃)

end

/-- The observation of a value through the heap: the tree a later reader
of the binding sees (`cut` marks exhausted fuel). -/
inductive Obs where
  | int (i : Int)
  | str (s : String)
  | sym (s : String)
  | otrue
  | ofalse
  | list (es : List Obs)
  | quotedO (o : Obs) (deg : Int)
  | quasiquotedO (o : Obs) (deg : Int)
  | unquotedO (o : Obs)
  | cut

def resolve : Nat → Heap → HVal → Obs
  | 0, _, _ => .cut
  | fuel + 1, h, v =>
    match v with
    | .int i => .int i
    | .str s => .str s
    | .sym s => .sym s
    | .htrue => .otrue
    | .hfalse => .ofalse
    | .vlist c => .list ((h.getD c []).map (resolve fuel h))
    | .quotedH w d => .quotedO (resolve fuel h w) d
    | .quasiquotedH w d => .quasiquotedO (resolve fuel h w) d
    | .unquotedH w => .unquotedO (resolve fuel h w)

/-- Well-formedness: every cell reference stored anywhere is a valid index
of the heap. -/
def wfVal (n : Nat) : HVal → Bool
  | .vlist c => c < n
  | .quotedH w _ => wfVal n w
  | .quasiquotedH w _ => wfVal n w
  | .unquotedH w => wfVal n w
  | _ => true

def wfCell (n : Nat) (cell : List HVal) : Bool := cell.all (wfVal n)

def wfHeap (h : Heap) : Bool := h.all (wfCell h.length)

/-- The deep copy only appends to the heap. -/
theorem copy_extends (fuel : Nat) :
    (∀ h v v' h', copyHV fuel h v = some (v', h') → ∃ d, h' = h ++ d) ∧
    (∀ h vs vs' h', copyCells fuel h vs = some (vs', h') → ∃ d, h' = h ++ d) := by
  induction fuel with
  | zero =>
      constructor
      · intro h v v' h' hc; simp [copyHV] at hc
      · intro h vs vs' h' hc; simp [copyCells] at hc
  | succ fuel ih =>
      obtain ⟨ih1, ih2⟩ := ih
      constructor
      · intro h v v' h' hc
        cases v with
        | vlist c =>
            simp only [copyHV, Option.bind_eq_bind, Option.bind_eq_some] at hc
            obtain ⟨⟨es, h₂⟩, hcells, heq⟩ := hc
            obtain ⟨d, rfl⟩ := ih2 h _ _ _ hcells
            simp only [Option.some.injEq, Prod.mk.injEq] at heq
            exact ⟨d ++ [es], by simp [← heq.2]⟩
        | quotedH w d =>
            simp only [copyHV, Option.bind_eq_bind, Option.bind_eq_some] at hc
            obtain ⟨⟨w', h₂⟩, hw, heq⟩ := hc
            obtain ⟨dd, rfl⟩ := ih1 h _ _ _ hw
            simp only [Option.some.injEq, Prod.mk.injEq] at heq
            exact ⟨dd, heq.2.symm⟩
        | quasiquotedH w d =>
            simp only [copyHV, Option.bind_eq_bind, Option.bind_eq_some] at hc
            obtain ⟨⟨w', h₂⟩, hw, heq⟩ := hc
            obtain ⟨dd, rfl⟩ := ih1 h _ _ _ hw
            simp only [Option.some.injEq, Prod.mk.injEq] at heq
            exact ⟨dd, heq.2.symm⟩
        | unquotedH w =>
            simp only [copyHV, Option.bind_eq_bind, Option.bind_eq_some] at hc
            obtain ⟨⟨w', h₂⟩, hw, heq⟩ := hc
            obtain ⟨dd, rfl⟩ := ih1 h _ _ _ hw
            simp only [Option.some.injEq, Prod.mk.injEq] at heq
            exact ⟨dd, heq.2.symm⟩
        | int i => simp [copyHV] at hc; exact ⟨[], by simp [hc.2]⟩
        | str s => simp [copyHV] at hc; exact ⟨[], by simp [hc.2]⟩
        | sym s => simp [copyHV] at hc; exact ⟨[], by simp [hc.2]⟩
        | htrue => simp [copyHV] at hc; exact ⟨[], by simp [hc.2]⟩
        | hfalse => simp [copyHV] at hc; exact ⟨[], by simp [hc.2]⟩
      · intro h vs vs' h' hc
        cases vs with
        | nil => simp [copyCells] at hc; exact ⟨[], by simp [hc.2]⟩
        | cons v rest =>
            simp only [copyCells, Option.bind_eq_bind, Option.bind_eq_some] at hc
            obtain ⟨⟨v', h₂⟩, hv, hc2⟩ := hc
            obtain ⟨⟨vs2, h₃⟩, hrest, heq⟩ := hc2
            obtain ⟨d1, rfl⟩ := ih1 h _ _ _ hv
            obtain ⟨d2, rfl⟩ := ih2 _ _ _ _ hrest
            simp only [Option.some.injEq, Prod.mk.injEq] at heq
            exact ⟨d1 ++ d2, by simp [← heq.2]⟩

/-- Copying a list value yields a *fresh* root cell: its index is at least
the old heap's length (and is a valid index of the new heap). -/
theorem copyHV_vlist_root (fuel : Nat) (h : Heap) (c : Nat) (v' : HVal) (h' : Heap)
    (hc : copyHV fuel h (.vlist c) = some (v', h')) :
    ∃ c', v' = .vlist c' ∧ h.length ≤ c' ∧ c' < h'.length := by
  cases fuel with
  | zero => simp [copyHV] at hc
  | succ fuel =>
      simp only [copyHV, Option.bind_eq_bind, Option.bind_eq_some] at hc
      obtain ⟨⟨es, h₂⟩, hcells, heq⟩ := hc
      obtain ⟨d, rfl⟩ := (copy_extends fuel).2 h _ _ _ hcells
      simp only [Option.some.injEq, Prod.mk.injEq] at heq
      refine ⟨(h ++ d).length, heq.1.symm, by simp, ?_⟩
      rw [← heq.2]
      simp

/-- Observations only read cells below the original heap's length when the
heap and the value are well-formed, so they are insensitive to any heap
that agrees on those cells. -/
theorem resolve_congr (h h₂ : Heap)
    (hwf : wfHeap h = true)
    (hagree : ∀ j, j < h.length → h₂.getD j [] = h.getD j []) :
    ∀ (fuel : Nat) (v : HVal), wfVal h.length v = true →
      resolve fuel h₂ v = resolve fuel h v := by
  intro fuel
  induction fuel with
  | zero => intro v _; rfl
  | succ fuel ih =>
      intro v hv
      cases v with
      | int i => rfl
      | str s => rfl
      | sym s => rfl
      | htrue => rfl
      | hfalse => rfl
      | vlist c =>
          have hc : c < h.length := by simpa [wfVal] using hv
          simp only [resolve, hagree c hc]
          congr 1
          apply List.map_congr_left
          intro x hx
          apply ih
          have hcell : wfCell h.length (h.getD c []) = true := by
            have hmem : h.getD c [] ∈ h := by
              rw [List.getD_eq_getElem?_getD, List.getElem?_eq_getElem hc]
              exact List.getElem_mem _
            exact (List.all_eq_true.mp hwf) _ hmem
          exact (List.all_eq_true.mp hcell) _ hx
      | quotedH w d =>
          have hw : wfVal h.length w = true := by simpa [wfVal] using hv
          simp only [resolve, ih w hw]
      | quasiquotedH w d =>
          have hw : wfVal h.length w = true := by simpa [wfVal] using hv
          simp only [resolve, ih w hw]
      | unquotedH w =>
          have hw : wfVal h.length w = true := by simpa [wfVal] using hv
          simp only [resolve, ih w hw]

/-- The focused machine state for the contract: the cell heap, the chain
of environment dicts (innermost first), and the operand stack. -/
structure HState where
  heap : Heap
  frames : List (List (Nat × HVal))
  stack : List HVal

/-- `_find_sym_env` + dict read over the chain. -/
def lookupChainH : List (List (Nat × HVal)) → Nat → Option HVal
  | [], _ => none
  | fr :: rest, k =>
      match fr.lookup k with
      | some v => some v
      | none => lookupChainH rest k

/-- `pushsy` on a resolvable binding: push `binding.copy()` (the heap
grows by the fresh cells of the deep copy). -/
def pushsyH (fuel : Nat) (s : HState) (k : Nat) : Option HState := do
  let v ← lookupChainH s.frames k
  let (v', h') ← copyHV fuel s.heap v
  some { s with heap := h', stack := v' :: s.stack }

/-- `tail`: `self.stack[-1].value = self.stack[-1].value[1:]` — truncate
the top list's cell in place (empty lists are a runtime error upstream). -/
def tailH (s : HState) : Option HState :=
  match s.stack with
  | .vlist c :: _ =>
      if (s.heap.getD c []).isEmpty then none
      else some { s with heap := s.heap.set c ((s.heap.getD c []).drop 1) }
  | _ => none

/-- `listcat`: pop the top list and extend the next list's cell in place
(`self.stack[-1].value += lst.value`). -/
def listcatH (s : HState) : Option HState :=
  match s.stack with
  | .vlist ct :: .vlist cu :: rest =>
      some
        { s with
            heap := s.heap.set cu (s.heap.getD cu [] ++ s.heap.getD ct []),
            stack := .vlist cu :: rest }
  | _ => none

theorem set_agree_below (h' : Heap) (hpre : Heap) (d : List (List HVal))
    (hsplit : h' = hpre ++ d) (c' : Nat) (hc : hpre.length ≤ c') (x : List HVal) :
    ∀ j, j < hpre.length → (h'.set c' x).getD j [] = hpre.getD j [] := by
  intro j hj
  subst hsplit
  rw [List.getD_eq_getElem?_getD, List.getElem?_set_ne (by omega)]
  rw [List.getElem?_append_left hj, ← List.getD_eq_getElem?_getD]

/-- C5: reading a list binding via `PUSHSY` yields a logically independent
copy: truncating it with `TAIL`, or extending it in place with `LISTCAT`,
never changes the observation of the original binding (at any resolution
depth) — `VList.copy`'s deep copy allocates only fresh cells, and both
mutations write the copy's root cell only. -/
theorem claim_C5_binding_purity (fuel : Nat) (s : HState) (k : Nat)
    (v : HVal) (c : Nat) (s₁ : HState)
    (hwf : wfHeap s.heap = true)
    (hbind : lookupChainH s.frames k = some v)
    (hvl : v = .vlist c)
    (hv : wfVal s.heap.length v = true)
    (hpush : pushsyH fuel s k = some s₁) :
    (∀ s₂, tailH s₁ = some s₂ →
       ∀ f, resolve f s₂.heap v = resolve f s.heap v) ∧
    (∀ w s₂, listcatH { s₁ with stack := w :: s₁.stack } = some s₂ →
       ∀ f, resolve f s₂.heap v = resolve f s.heap v) := by
  subst hvl
  simp only [pushsyH, hbind, Option.bind_eq_bind, Option.some_bind,
    Option.bind_eq_some] at hpush
  obtain ⟨⟨v', h'⟩, hcopy, hs₁⟩ := hpush
  obtain ⟨c', rfl, hge, hlt⟩ := copyHV_vlist_root fuel s.heap c v' h' hcopy
  obtain ⟨d, hd⟩ := (copy_extends fuel).1 s.heap _ _ _ hcopy
  simp only [Option.some.injEq] at hs₁
  subst hs₁
  constructor
  · intro s₂ htail f
    simp only [tailH] at htail
    split at htail
    · exact Option.noConfusion htail
    · simp only [Option.some.injEq] at htail
      subst htail
      apply resolve_congr s.heap _ hwf
      · exact set_agree_below h' s.heap d hd c' hge _
      · exact hv
  · intro w s₂ hcat f
    simp only [listcatH] at hcat
    split at hcat
    · next ct cu rest heq =>
        injection heq with heq1 heq2
        injection heq2 with heq2a heq2b
        injection heq2a with heqc
        subst heqc
        simp only [Option.some.injEq] at hcat
        subst hcat
        apply resolve_congr s.heap _ hwf
        · exact set_agree_below h' s.heap d hd c' hge _
        · exact hv
    · exact Option.noConfusion hcat

/-- A binding `one = (list 1 2 3)`: heap with one cell, a single frame
binding symbol 0 to that list, an empty stack. -/
def demoHState : HState :=
  { heap := [[HVal.int 1, HVal.int 2, HVal.int 3]],
    frames := [[(0, HVal.vlist 0)]],
    stack := [] }

def demoAfterPush : HState :=
  { heap := [[HVal.int 1, HVal.int 2, HVal.int 3],
             [HVal.int 1, HVal.int 2, HVal.int 3]],
    frames := [[(0, HVal.vlist 0)]],
    stack := [HVal.vlist 1] }

def demoAfterTail : HState :=
  { heap := [[HVal.int 1, HVal.int 2, HVal.int 3], [HVal.int 2, HVal.int 3]],
    frames := [[(0, HVal.vlist 0)]],
    stack := [HVal.vlist 1] }

theorem claim_C5_binding_purity_witness :
    resolve 5 demoAfterTail.heap (HVal.vlist 0)
      = resolve 5 demoHState.heap (HVal.vlist 0) :=
  (claim_C5_binding_purity 10 demoHState 0 (HVal.vlist 0) 0 demoAfterPush
      (by decide) rfl rfl (by decide) rfl).1 demoAfterTail rfl 5

end RefModel

end Lisby
